import Mathlib

/-!
Verification of the MyTardis RO-Crate ingestion builder.

This file shallowly embeds the entity-graph builder of the
`mytardis_ingestion_rocrate` repository: the RO-Crate graph store and its
builder operations (`src/rocrate_builder/rocrate_builder.py`), the metadata
extraction engine (`src/metadata_extraction/metadata_extraction.py`), the
print-lab profile builder
(`src/ingestion_targets/print_lab_genomics/print_crate_builder.py`), the
print-lab extractor's ACL parsing
(`src/ingestion_targets/print_lab_genomics/extractor.py`) and the encryption
stub (`src/encryption/encrypt_metadata.py`).

Python dictionaries are modelled as insertion-ordered association lists with
replace-on-rewrite semantics, exceptions as `Except`, the logger as an
explicit list of log records carried in the builder state, and the external
ro-crate library's entity store (`add` / `dereference` / `append_to`) as a
list of nodes keyed by formatted identifier.
-/

namespace MyTardisIngestion

/-- Property values stored on a crate node (the JSON-LD property bag).
Lists of references/strings are flattened to their id strings, as the
ro-crate library stores `{"@id": ...}` references. -/
inductive PropVal where
  | s (v : String)
  | b (v : Bool)
  | null
  | arr (v : List String)
  | obj (v : List (String × String))
deriving DecidableEq, Repr

/-- A Python dict of JSON-LD properties: insertion-ordered association list. -/
abbrev Props := List (String × PropVal)

/-- Dict lookup (`properties.get(key)`). -/
def Props.get (ps : Props) (k : String) : Option PropVal :=
  (ps.find? (fun kv => kv.1 == k)).map (fun kv => kv.2)

/-- Dict assignment (`properties[key] = value`): replaces the entry in place
when the key is present (dict keys are unique), else appends it. -/
def Props.set : Props → String → PropVal → Props
  | [], k, v => [(k, v)]
  | kv :: tl, k, v => if kv.1 == k then (k, v) :: tl else kv :: Props.set tl k v

/-- `dict.update`: merge the right dict into the left. -/
def Props.update (ps qs : Props) : Props :=
  qs.foldl (fun acc kv => acc.set kv.1 kv.2) ps

/-- Membership of a key (`key in properties.keys()`). -/
def Props.hasKey (ps : Props) (k : String) : Bool :=
  ps.any (fun kv => kv.1 == k)

/-- The Python classes of crate nodes that appear in the builder:
`ContextEntity`, `EncryptedContextEntity`, data entities (files/datasets),
and `Person`. -/
inductive EntityKind where
  | context
  | encryptedContext
  | data
  | person
deriving DecidableEq, Repr

/-- A node of the RO-Crate document graph. -/
structure ROEntity where
  kind : EntityKind
  id : String
  props : Props
deriving DecidableEq, Repr

/-- Levels of the Python `logging` calls appearing in the embedded code. -/
inductive LogLevel where
  | debug
  | info
  | warning
  | error
deriving DecidableEq, Repr

/-- One emitted log record. -/
structure LogEntry where
  level : LogLevel
  msg : String
deriving DecidableEq, Repr

/-- Identifier of the crate's implicit root dataset (`./` in ro-crate). -/
def rootDatasetId : String := "./"

/-- Modelled from the spec: the graph store (spec 4.2), as provided by the
external ro-crate library (`ROCrate`): an entity map keyed by identifier,
a source directory, and the root dataset's source pointer.  `fs` models which
paths exist on the file system (for `Path.exists()` checks), and `logs` the
records emitted through the Python logger while building. -/
structure Crate where
  source : String
  entities : List ROEntity
  rootSource : String := ""
  fs : List String := []
  logs : List LogEntry := []
deriving DecidableEq, Repr

/-- A freshly created crate: it contains exactly the implicit root dataset. -/
def initialCrate (source : String) : Crate :=
  { source := source
    entities := [⟨.data, rootDatasetId, [("@type", PropVal.s "Dataset")]⟩]
    rootSource := source }

/-- Whether `pre` is a prefix of `s`, on the character lists (kernel-reducible
equivalent of `String.startsWith`). -/
def strStarts (s pre : String) : Bool :=
  pre.data.isPrefixOf s.data

/-- Modelled from the spec: `ContextEntity.format_id` of the external
ro-crate library prefixes `#` to an identifier that is neither a fragment
nor a URL (experiment nodes end up dereferenceable under `"#" + id`). -/
def formatContextId (i : String) : String :=
  if strStarts i "#" || strStarts i "http://" || strStarts i "https://" then i
  else "#" ++ i

/-- Modelled from the spec: dataset data-entity identifiers of the external
ro-crate library end in a slash. -/
def formatDatasetId (i : String) : String :=
  if ("/".data).isSuffixOf i.data then i else i ++ "/"

/-- Insert a node into the entity list keyed by identifier: replace in place
when the identifier is present (identifiers are unique map keys), else
append. -/
def insertEntity : List ROEntity → ROEntity → List ROEntity
  | [], e => [e]
  | x :: tl, e => if x.id == e.id then e :: tl else x :: insertEntity tl e

/-- Modelled from the spec: `ROCrate.add` keys the entity map by identifier;
adding an entity whose identifier is already present replaces the stored
node, otherwise the node is appended. -/
def Crate.addEntity (c : Crate) (e : ROEntity) : Crate :=
  { c with entities := insertEntity c.entities e }

/-- Modelled from the spec: `ROCrate.dereference(id)` returns the stored node
with that identifier, or nothing (spec 4.2). -/
def Crate.dereference (c : Crate) (i : String) : Option ROEntity :=
  c.entities.find? (fun x => x.id == i)

/-- The crate's implicit root dataset entity (`crate.root_dataset`). -/
def Crate.root_dataset (c : Crate) : ROEntity :=
  (c.dereference rootDatasetId).getD ⟨.data, rootDatasetId, []⟩

/-- Modelled from the spec: `Entity.append_to(key, value)` of the external
ro-crate library: the current value is wrapped into a list when it is not
one, and the new value is appended; no duplicate elimination is performed.
(The scalar `bool`/`None` wrap cases are unreachable in the embedded flows.) -/
def PropVal.appended : Option PropVal → String → PropVal
  | none, v => .arr [v]
  | some (.arr l), v => .arr (l ++ [v])
  | some (.s s0), v => .arr [s0, v]
  | some (.b b0), v => .arr [(if b0 then "True" else "False"), v]
  | some .null, v => .arr ["None", v]
  | some (.obj _), v => .arr [v]

/-- `entity.append_to(key, value)` on a local (not yet added) entity. -/
def ROEntity.appendTo (e : ROEntity) (k v : String) : ROEntity :=
  { e with props := e.props.set k (PropVal.appended (e.props.get k) v) }

/-- `entity.append_to(key, value)` on an entity stored in the crate: Python
mutates the shared object, so the stored node is updated in place. -/
def Crate.appendTo (c : Crate) (eid k v : String) : Crate :=
  { c with entities := c.entities.map (fun x => if x.id == eid then x.appendTo k v else x) }

/-- Replace the stored node's property bag by its `dict.update` with `ps`
(`entity.properties().update(ps)` mutates the shared dict). -/
def Crate.updateEntityProps (c : Crate) (eid : String) (ps : Props) : Crate :=
  { c with entities := c.entities.map (fun x => if x.id == eid then { x with props := x.props.update ps } else x) }

/-- Append a record to the builder's log. -/
def Crate.log (c : Crate) (lv : LogLevel) (m : String) : Crate :=
  { c with logs := c.logs ++ [⟨lv, m⟩] }

/-- The warning records among the emitted logs. -/
def Crate.warnings (c : Crate) : List LogEntry :=
  c.logs.filter (fun l => l.level == .warning)

/-- Python string truthiness: the empty string is falsy. -/
def pyTruthy (s : String) : Bool := s != ""

/-- Python truthiness of an optional string (`None` and `""` are falsy). -/
def pyTruthyOpt : Option String → Bool
  | none => false
  | some s => pyTruthy s

/-- Python `a or b` on an optional string against a string default. -/
def pyOrOpt (a : Option String) (b : String) : String :=
  match a with
  | some s => if pyTruthy s then s else b
  | none => b

/-- Split a character list at a separator character (the semantics of
Python's `str.split(sep)` for a one-character separator). -/
def splitChars : List Char → Char → List (List Char)
  | [], _ => [[]]
  | c :: cs, sep =>
    if c == sep then [] :: splitChars cs sep
    else
      match splitChars cs sep with
      | [] => [[c]]
      | w :: ws => (c :: w) :: ws

/-- Python `s.split(sep)` for a one-character separator. -/
def pySplit (s : String) (sep : Char) : List String :=
  (splitChars s.data sep).map String.mk

/-- Modelled from the spec: the third-party `slugify` used to key grantee
rosters and sensitive-node names, restricted to ASCII input: alphanumeric
runs are lower-cased and joined with single hyphens, everything else is a
separator. -/
def slugify (s : String) : String :=
  let cleaned := s.data.map (fun c => if c.isAlphanum then c.toLower else ' ')
  String.intercalate "-"
    (((splitChars cleaned ' ').filter (fun w => w ≠ [])).map String.mk)

/-! ## Encryption stub (`src/encryption/encrypt_metadata.py`) -/

/-- `Encryptor`: holds the public keys it was constructed with. -/
structure Encryptor where
  keys : List String
deriving DecidableEq, Repr

/-- The constant produced by the stubbed `encrypt_string`. -/
def encryptStubText : String := "This string is so encrypted you can\x27t even read it!"

/-- `Encryptor.encrypt_string`: the source immediately overwrites
`input_string` with a fixed literal and returns it. -/
def Encryptor.encrypt_string (_e : Encryptor) (_input_string : String) : String :=
  encryptStubText

/-! ## Identifier resolution for persons
(`ROBuilder.__add_person_to_crate`, `src/rocrate_builder/rocrate_builder.py`) -/

/-- `re.fullmatch` of the ORCID pattern
`https://orcid.org/[0-9]{4}-[0-9]{4}-[0-9]{4}-[0-9]{3}[0-9X]{1}`:
the tail after the host must be exactly four dash-separated groups,
the last character a digit or `X`. -/
def orcidTailMatch : List Char → Bool
  | [a, b, c, d, '-', e, f, g, h, '-', i, j, k, l, '-', m, n, o, p] =>
      ([a, b, c, d, e, f, g, h, i, j, k, l, m, n, o].all Char.isDigit)
        && (p.isDigit || p == 'X')
  | _ => false

/-- Full match of the builder's ORCID regular expression. -/
def orcidMatch (s : String) : Bool :=
  strStarts s "https://orcid.org/" && orcidTailMatch (s.data.drop 18)

/-- Full match of the institutional-username (UPI) regular expression
`^[a-z]{2,4}[0-9]{3}$`: two to four lowercase ASCII letters followed by
exactly three digits. -/
def upiMatch (s : String) : Bool :=
  let l := s.data
  let n := l.length
  decide (5 ≤ n) && decide (n ≤ 7)
    && (l.take (n - 3)).all Char.isLower
    && (l.drop (n - 3)).all Char.isDigit

/-- The Python loop `for identifier in ...: if regex.fullmatch(identifier):
person_id = identifier` keeps the last matching element. -/
def lastMatching (p : String → Bool) (l : List String) : Option String :=
  l.foldl (fun acc x => if p x then some x else acc) none

/-- The identifier chosen by `ROBuilder.__add_person_to_crate` for a person:
the last ORCID-matching identifier when one exists, else the last
UPI-matching identifier, else the first identifier (`identifiers[0]`, an
exception on an empty list, modelled as `none`).  Both regexes reject the
empty string, so Python's `if not person_id` falsiness test coincides with
the `Option` match. -/
def resolve_person_id (identifiers : List String) : Option String :=
  match lastMatching orcidMatch identifiers with
  | some i => some i
  | none =>
    match lastMatching upiMatch identifiers with
    | some i => some i
    | none => identifiers.head?

/-! ## Metadata extraction (`src/metadata_extraction/metadata_extraction.py`) -/

/-- The fixed lookup table `MT_METADATA_TYPE` (keys 1..8; the string key
`"default"` maps to `STRING` and is modelled by the fallback in
`get_metadata_type`). -/
def MT_METADATA_TYPE : Int → Option String
  | 1 => some "NUMERIC"
  | 2 => some "STRING"
  | 3 => some "URL"
  | 4 => some "LINK"
  | 5 => some "FILENAME"
  | 6 => some "DATETIME"
  | 7 => some "LONGSTRING"
  | 8 => some "JSON"
  | _ => none

/-- `get_metadata_type`: table lookup, defaulting to `STRING` when the
integer code is absent from the table. -/
def get_metadata_type (type_enum : Int) : String :=
  (MT_METADATA_TYPE type_enum).getD "STRING"

/-- One entry of a metadata schema as fetched from the API:
`schema[key].get("data_type")` may be absent (`none`), and
`bool(schema[key].get("sensitive"))` treats an absent flag as false. -/
structure SchemaEntry where
  data_type : Option Int
  sensitive : Option Bool
deriving DecidableEq, Repr

/-- A metadata schema: `MetadataSchema.schema` keyed by parameter full name,
plus the namespace `url`. -/
structure MetadataSchema where
  schema : List (String × SchemaEntry)
  url : String
deriving DecidableEq, Repr

/-- `metadata_schema.schema.get(key)`. -/
def MetadataSchema.lookup (ms : MetadataSchema) (k : String) : Option SchemaEntry :=
  (ms.schema.find? (fun kv => kv.1 == k)).map (fun kv => kv.2)

/-- The `MTMetadata` dataclass fields populated by
`create_metadata_objects` (parent and key fingerprints are carried opaquely). -/
structure MTMetadataObj where
  name : String
  value : String
  mt_type : String
  mt_schema : String
  sensitive : Bool
  parent : Option String
deriving DecidableEq, Repr

/-- Python dict insertion `metadata_dict[key] = value`: replace in place when
the key is present (dict keys are unique), else append. -/
def dictInsertMeta : List (String × MTMetadataObj) → String → MTMetadataObj →
    List (String × MTMetadataObj)
  | [], k, v => [(k, v)]
  | kv :: tl, k, v => if kv.1 == k then (k, v) :: tl else kv :: dictInsertMeta tl k v

/-- Processing of one raw key/value pair inside the `create_metadata_objects`
loop.  `none` means the pair is dropped (filter rejected); an error is the
`TypeError` raised by `int(None)` when a matched schema entry carries no
`data_type`.  The raw values reaching this code are spreadsheet/JSON strings,
so Python truthiness of the value is the non-empty-string test. -/
def processMetadataPair (ms : MetadataSchema) (collect_all : Bool)
    (parent : Option String) (meta_key meta_value : String) :
    Except String (Option MTMetadataObj) :=
  if (pyTruthy meta_key && pyTruthy meta_value)
      && (collect_all || (ms.lookup meta_key).isSome) then
    match ms.lookup meta_key with
    | some entry =>
      match entry.data_type with
      | none => .error "TypeError: int() argument must not be NoneType"
      | some t =>
        .ok (some
          { name := meta_key
            value := meta_value
            mt_type := get_metadata_type t
            mt_schema := ms.url
            sensitive := entry.sensitive.getD false
            parent := parent })
    | none =>
      .ok (some
        { name := meta_key
          value := meta_value
          mt_type := get_metadata_type 2
          mt_schema := ms.url
          sensitive := false
          parent := parent })
  else .ok none

/-- `create_metadata_objects`: filter and convert an input dictionary into
`MTMetadata` objects keyed by name; an uncaught `TypeError` aborts the call. -/
def create_metadata_objects (input_metadata : List (String × String))
    (metadata_schema : MetadataSchema) (collect_all : Bool)
    (parent : Option String) :
    Except String (List (String × MTMetadataObj)) :=
  input_metadata.foldlM
    (fun metadata_dict kv => do
      match ← processMetadataPair metadata_schema collect_all parent kv.1 kv.2 with
      | some m => pure (dictInsertMeta metadata_dict kv.1 m)
      | none => pure metadata_dict)
    []

/-! ## The base builder (`src/rocrate_builder/rocrate_builder.py`) -/

/-- The `MTMetadata` dataclass as consumed by `ROBuilder._add_metadata`
(module `src.rocrate_dataclasses.rocrate_dataclasses`, not shipped under
`src/`). `parent` records the parent identifier the object was created for. -/
structure MTMetadata where
  name : String
  value : String
  mt_type : String
  sensitive : Bool
  parent : String
  parents : Option (List String) := none
deriving DecidableEq, Repr

/-- Modelled from the spec: `MTMetadata.ro_crate_id` lives in the repository
module `src.rocrate_dataclasses.rocrate_dataclasses`, which is not included
under `src/`; the spec says metadata node identifiers are derived
deterministically from (parent identifier, metadata name), and the builder
stores the node under `"parent_name"` joined with `"_"`, which the crate
prefixes with `#`. -/
def MTMetadata.ro_crate_id (m : MTMetadata) : String :=
  formatContextId (m.parent ++ "_" ++ m.name)

/-- `ROBuilder._add_metadata_to_crate`: build the metadata context entity and
add it to the crate with the given identifier and single parent. -/
def addMetadataToCrate (c : Crate) (metadata_obj : MTMetadata)
    (metadata_id : String) (parent_id : String) : Crate :=
  let metadata : ROEntity :=
    ⟨.context, formatContextId metadata_id,
      [("@type", PropVal.s "my_tardis_metadata"),
       ("name", PropVal.s metadata_obj.name),
       ("value", PropVal.s metadata_obj.value),
       ("myTardis-type", PropVal.s metadata_obj.mt_type),
       ("sensitive", PropVal.b metadata_obj.sensitive),
       ("parents", PropVal.arr [parent_id])]⟩
  c.addEntity metadata

/-- `ROBuilder._crate_contains_metadata`: dereference the metadata object's
crate identifier and return the stored node when its name and value match. -/
def crateContainsMetadata (c : Crate) (metadata : MTMetadata) : Option ROEntity :=
  match c.dereference metadata.ro_crate_id with
  | some crate_metadata =>
    if crate_metadata.props.get "name" = some (PropVal.s metadata.name)
        ∧ crate_metadata.props.get "value" = some (PropVal.s metadata.value) then
      some crate_metadata
    else none
  | none => none

/-- Append `metadata_id` to `properties["metadata"]` unless already listed. -/
def propsMetadataAppend (props : Props) (metadata_id : String) : Props :=
  match props.get "metadata" with
  | some (.arr l) => if l.contains metadata_id then props else props.set "metadata" (.arr (l ++ [metadata_id]))
  | _ => props.set "metadata" (.arr [metadata_id])

/-- `ROBuilder._add_metadata`: attach each metadata object to the crate,
appending the parent to an already-present node instead of duplicating it;
the parent's property bag records the attached metadata identifiers.
(The source also writes `metadata_object.parents` on the dataclass when it is
`None`; that field is never read back by the builder and is not tracked.) -/
def addMetadataProps (c : Crate) (parent_name : String) (properties : Props)
    (metadata : List (String × MTMetadata)) : Crate × Props :=
  let properties := properties.set "metadata" (.arr [])
  metadata.foldl
    (fun acc kv =>
      let metadata_object := kv.2
      let metadata_id := parent_name ++ "_" ++ metadata_object.name
      let c := acc.1
      let c :=
        match crateContainsMetadata c metadata_object with
        | some existing_metadata => c.appendTo existing_metadata.id "parents" parent_name
        | none => addMetadataToCrate c metadata_object metadata_id parent_name
      (c, propsMetadataAppend acc.2 metadata_id))
    (c, properties)

/-- `ROBuilder._add_dates`: record created/modified/published dates
(dates are carried as their ISO strings). -/
def addDatesProps (properties : Props) (date_created : String)
    (date_modified : Option (List String)) : Props :=
  let properties := properties.set "dateCreated" (.s date_created)
  let properties :=
    match date_modified with
    | some l => if l.isEmpty then properties else properties.set "dateModified" (.arr l)
    | none => properties
  properties.set "datePublished" (.s date_created)

/-- `ROBuilder._add_additional_properties`: record the additional key/value
pairs that do not clash with existing property keys.  (The source's `elif`
branch is unreachable: it would require a key already collected, which the
guard excludes.) -/
def addAdditionalProps (properties : Props)
    (additional_properties : List (String × String)) : Props :=
  let properties := properties.set "additionalProperty" (.obj [])
  additional_properties.foldl
    (fun ps kv =>
      if ps.hasKey kv.1 then ps
      else
        match ps.get "additionalProperty" with
        | some (.obj m) =>
          if m.any (fun p => p.1 == kv.1) then ps
          else ps.set "additionalProperty" (.obj (m ++ [kv]))
        | _ => ps)
    properties

/-- `ROBuilder._add_identifiers`: append the dataclass identifiers beyond the
first to the node, then add the node to the crate and return it. -/
def addIdentifiers (c : Crate) (identifiers : List String) (rocrate_obj : ROEntity) :
    Crate × ROEntity :=
  let rocrate_obj :=
    if identifiers.length > 1 then
      identifiers.enum.foldl
        (fun o p => if p.1 ≠ 0 then o.appendTo "identifiers" p.2 else o)
        rocrate_obj
    else rocrate_obj
  (c.addEntity rocrate_obj, rocrate_obj)

/-- The `ContextObject` dataclass fields used by
`ROBuilder.add_context_object` (instruments and similar context nodes). -/
structure ContextObject where
  id : String
  name : String
  schema_type : Option String := none
  metadata : List (String × MTMetadata) := []
  date_created : Option String := none
  date_modified : Option (List String) := none
deriving DecidableEq, Repr

/-- `ROBuilder.add_context_object`: serialize the dataclass's field dict as
the property bag (modelled by its `id`/`name` fields), apply the schema type,
metadata and dates, and add the context entity to the crate. -/
def addContextObject (c : Crate) (context_object : ContextObject) : Crate × ROEntity :=
  let identifier := context_object.id
  let properties : Props := [("id", .s context_object.id), ("name", .s context_object.name)]
  let properties :=
    match context_object.schema_type with
    | some st => properties.set "@type" (.s st)
    | none => properties
  let (c, properties) :=
    match context_object.metadata with
    | [] => (c, properties)
    | m₁ :: ms => addMetadataProps c identifier properties (m₁ :: ms)
  let properties :=
    match context_object.date_created with
    | some d => addDatesProps properties d context_object.date_modified
    | none => properties
  let context_entity : ROEntity := ⟨.context, formatContextId identifier, properties⟩
  (c.addEntity context_entity, context_entity)

/-- The `Dataset` dataclass fields used by `ROBuilder.add_dataset`
(`directory` is the posix form of the path, `experiments` the referenced
experiment identifiers). -/
structure Dataset where
  name : String
  description : String
  directory : String
  experiments : List String
  instrument : Option ContextObject := none
  metadata : List (String × MTMetadata) := []
  date_created : Option String := none
  date_modified : Option (List String) := none
  additional_properties : List (String × String) := []
  identifiers : List String := []
deriving Repr

/-- The crate state produced by the root-dataset branch of `add_dataset`:
the debug log record, the in-place update of the root dataset's property
bag (`self.crate.root_dataset.properties().update(properties)`), and the
root source pointer
(`self.crate.root_dataset.source = self.crate.source / Path(directory)`). -/
def rootUpdatedCrate (c : Crate) (properties : Props) (directory : String) : Crate :=
  let c := c.log .debug "Updating root dataset"
  let c := c.updateEntityProps rootDatasetId properties
  { c with rootSource := c.source ++ "/" ++ directory }

/-- `ROBuilder.add_dataset`.  Each experiment reference is dereferenced under
`"#" + experiment`; a missing one raises (`None.id` is an `AttributeError`).
A dataset without an instrument raises `UnboundLocalError` because
`properties["instrument"] = instrument_id` runs unconditionally.  A dataset
whose directory is `"."` updates the crate's root dataset in place instead of
creating a node; any other directory becomes a new data entity keyed by the
directory path. -/
def addDataset (c : Crate) (dataset : Dataset) : Except String (Crate × ROEntity) := do
  let directory := dataset.directory
  let identifier := directory
  let experiments ← dataset.experiments.mapM
    (fun experiment =>
      match c.dereference ("#" ++ experiment) with
      | some e => Except.ok e.id
      | none => Except.error "AttributeError: NoneType object has no attribute id")
  let properties : Props :=
    [("identifiers", .s identifier),
     ("name", .s dataset.name),
     ("description", .s dataset.description),
     ("includedInDataCatalog", .arr experiments)]
  let (c, instrument_id) ←
    match dataset.instrument with
    | some instrument =>
      let r := addContextObject c instrument
      Except.ok (r.1, r.2.id)
    | none => Except.error "UnboundLocalError: local variable instrument_id referenced before assignment"
  let properties := properties.set "instrument" (.s instrument_id)
  let (c, properties) :=
    match dataset.metadata with
    | [] => (c, properties)
    | m₁ :: ms => addMetadataProps c identifier properties (m₁ :: ms)
  let properties :=
    match dataset.date_created with
    | some d => addDatesProps properties d dataset.date_modified
    | none => properties
  let properties :=
    match dataset.additional_properties with
    | [] => properties
    | a₁ :: as₁ => addAdditionalProps properties (a₁ :: as₁)
  if identifier = "." then
    let c := rootUpdatedCrate c properties directory
    let dataset_obj := c.root_dataset
    return addIdentifiers c dataset.identifiers dataset_obj
  else
    let dataset_obj : ROEntity := ⟨.data, formatDatasetId directory, properties⟩
    let c := c.addEntity dataset_obj
    return addIdentifiers c dataset.identifiers dataset_obj

/-- The `Datafile` dataclass fields used by `ROBuilder.add_datafile`
(`dataset` is the owning dataset reference passed to `dereference`). -/
structure Datafile where
  name : String
  description : String
  filepath : String
  dataset : String
  metadata : List (String × MTMetadata) := []
  date_created : Option String := none
  date_modified : Option (List String) := none
  additional_properties : List (String × String) := []
  identifiers : List String := []
deriving Repr

/-- `ROBuilder.add_datafile`: build the file node, pick the on-disk source if
it exists, dereference the owning dataset and fall back to the crate's root
dataset when the reference does not resolve, add the file, and append it to
the chosen parent's `hasPart`. -/
def addDatafile (c : Crate) (datafile : Datafile) : Crate × ROEntity :=
  let identifier := datafile.filepath
  let properties : Props :=
    [("identifiers", .s identifier),
     ("name", .s datafile.name),
     ("description", .s datafile.description)]
  let (c, properties) :=
    match datafile.metadata with
    | [] => (c, properties)
    | m₁ :: ms => addMetadataProps c identifier properties (m₁ :: ms)
  let properties :=
    match datafile.date_created with
    | some d => addDatesProps properties d datafile.date_modified
    | none => properties
  let properties :=
    match datafile.additional_properties with
    | [] => properties
    | a₁ :: as₁ => addAdditionalProps properties (a₁ :: as₁)
  let source :=
    if c.fs.contains (c.source ++ "/" ++ datafile.filepath) then
      c.source ++ "/" ++ datafile.filepath
    else identifier
  let dataset_obj : ROEntity :=
    match c.dereference datafile.dataset with
    | some e => e
    | none => c.root_dataset
  let destination_path := source
  let datafile_obj : ROEntity := ⟨.data, destination_path, properties⟩
  let c := c.addEntity datafile_obj
  let c := c.log .info ("Adding File to Crate " ++ identifier)
  let c := c.appendTo dataset_obj.id "hasPart" datafile_obj.id
  addIdentifiers c datafile.identifiers datafile_obj

/-! ## Print-lab profile builder
(`src/ingestion_targets/print_lab_genomics/print_crate_builder.py`) -/

/-- A `User` recipient: `roc_id` is the crate identifier of the person node
(`"#"` plus the user identifier, as exercised by the repository's tests). -/
structure User where
  id : String
  name : String := ""
deriving DecidableEq, Repr

/-- The user's crate identifier. -/
def User.roc_id (u : User) : String := formatContextId u.id

/-- Modelled from the spec: `ROBuilder.add_user` of the external base builder
(not shipped under `src/`) inserts a person node for the recipient and
returns it, reusing the graph-store insertion of spec 4.2. -/
def addUser (c : Crate) (user : User) : Crate × ROEntity :=
  let e : ROEntity := ⟨.person, user.roc_id, [("name", .s user.name)]⟩
  (c.addEntity e, e)

/-- The `Participant` dataclass
(`src/ingestion_targets/print_lab_genomics/print_crate_dataclasses.py`):
person-like sensitive record with optional date of birth, NHI number and
decryption recipients. -/
structure Participant where
  id : String
  name : String
  description : String
  project : String
  gender : String
  ethnicity : String
  date_of_birth : Option String := none
  nhi_number : Option String := none
  recipients : List User := []
  additional_properties : Props := []
deriving Repr

/-- The participant's crate identifier (`MyTardisContextObject.roc_id`). -/
def Participant.roc_id (p : Participant) : String := formatContextId p.id

/-- Resolve each recipient: `crate.dereference(user.roc_id) or add_user(user)`
(the comprehension's `if user` filter never drops a present user object). -/
def resolveRecipients : Crate → List User → Crate × List ROEntity
  | c, [] => (c, [])
  | c, user :: us =>
    let r :=
      match c.dereference user.roc_id with
      | some e => (c, e)
      | none => addUser c user
    let rest := resolveRecipients r.1 us
    (rest.1, r.2 :: rest.2)

/-- `PrintLabROBuilder._add_participant_sensitve`: build the encrypted
`MedicalEntity` child carrying the NHI/date-of-birth payload, link it back to
the participant through its `parents` list, resolve and record the
recipients under `encryptedTo`, and add it to the crate. -/
def addParticipantSensitive (c : Crate) (participant : Participant)
    (participant_id : String) : Crate × ROEntity :=
  let name := slugify (participant.id ++ "-sensitive")
  let sensitive_data : ROEntity :=
    ⟨.encryptedContext, formatContextId name,
      [("@type", .s "MedicalEntity"),
       ("name", .s name),
       ("NHI number", .s (pyOrOpt participant.nhi_number "N/A")),
       ("date_of_birth",
         match participant.date_of_birth with
         | some d => .s d
         | none => .null),
       ("parents", .arr [participant_id])]⟩
  let (c, sensitive_data) :=
    match participant.recipients with
    | [] => (c, sensitive_data)
    | u₁ :: us =>
      let r := resolveRecipients c (u₁ :: us)
      (r.1, r.2.foldl (fun e (recip : ROEntity) => e.appendTo "encryptedTo" recip.id) sensitive_data)
  (c.addEntity sensitive_data, sensitive_data)

/-- Modelled from the spec: `ROBuilder._update_properties` of the external
base builder (not shipped under `src/`) merges the entity's dynamic
additional properties into the node's property bag before creation. -/
def updateProperties (properties : Props) (data_object : Participant) : Props :=
  properties.update data_object.additional_properties

/-- `PrintLabROBuilder.add_participant`.  A participant already present is
returned unchanged.  With `sensitive` set and recipients present the source
dereferences `participant.user.rocid`, but the repository's `Participant`
dataclass defines no `user` attribute, so that (unexercised) branch raises
`AttributeError`.  Otherwise a plain context entity is built; when the
participant has recipients and a truthy date of birth or NHI number, the
separate encrypted child is attached under `sensitive`.  No branch emits any
log record. -/
def addParticipant (c : Crate) (participant : Participant) (sensitive : Bool := false) :
    Except String (Crate × ROEntity) := do
  let identifier := participant.roc_id
  match c.dereference identifier with
  | some participant_obj => return (c, participant_obj)
  | none =>
    let properties : Props :=
      [("@type", .arr ["Person", "MedicalEntity", "Patient"]),
       ("name", .s participant.name),
       ("description", .s participant.description),
       ("project", .s participant.project),
       ("gender", .s participant.gender),
       ("ethnicity", .s participant.ethnicity)]
    let properties := updateProperties properties participant
    match participant.recipients with
    | u₁ :: us =>
      if sensitive then
        Except.error "AttributeError: Participant object has no attribute user"
      else
        let participant_obj : ROEntity := ⟨.context, identifier, properties⟩
        let (c, participant_obj) :=
          if pyTruthyOpt participant.date_of_birth || pyTruthyOpt participant.nhi_number then
            let r := addParticipantSensitive c { participant with recipients := u₁ :: us } participant.id
            (r.1, participant_obj.appendTo "sensitive" r.2.id)
          else (c, participant_obj)
        return (c.addEntity participant_obj, participant_obj)
    | [] =>
      let participant_obj : ROEntity := ⟨.context, identifier, properties⟩
      return (c.addEntity participant_obj, participant_obj)

/-! ## Print-lab extractor ACL parsing
(`src/ingestion_targets/print_lab_genomics/extractor.py`) -/

/-- One row of the `Groups` roster sheet. -/
structure AclRow where
  rowName : String
  see_sensitive : Bool
  can_download : Bool
  is_owner : Bool
deriving DecidableEq, Repr

/-- The `ACL` dataclass fields populated by `create_acl`. -/
structure ACLRec where
  name : String
  grantee : String
  grantee_type : String
  mytardis_see_sensitive : Bool
  mytardis_can_download : Bool
  mytardis_owner : Bool
  parent : String
deriving DecidableEq, Repr

/-- `PrintLabExtractor._index_acls`: key each roster row by the slug of its
name (a later duplicate slug overwrites an earlier one, as in the Python
dict comprehension). -/
def indexAcls (rows : List AclRow) : List (String × AclRow) :=
  rows.foldl
    (fun acc row =>
      let k := slugify row.rowName
      if acc.any (fun kv => kv.1 == k) then
        acc.map (fun kv => if kv.1 == k then (k, row) else kv)
      else acc ++ [(k, row)])
    []

/-- Roster lookup (`indexed_acls.get(slugify(acl_id))`). -/
def lookupAcl (indexed_acls : List (String × AclRow)) (k : String) : Option AclRow :=
  (indexed_acls.find? (fun kv => kv.1 == k)).map (fun kv => kv.2)

/-- The inner `create_acl` of `_parse_acls`: build an ACL from a roster row,
granting to the row's group with the row's flags, parented on the given
entity. -/
def createAcl (parent : String) (row : AclRow) : ACLRec :=
  { name := slugify row.rowName
    grantee := row.rowName
    grantee_type := "Audiance"
    mytardis_see_sensitive := row.see_sensitive
    mytardis_can_download := row.can_download
    mytardis_owner := row.is_owner
    parent := parent }

/-- `PrintLabExtractor._parse_acls`: for each requested name, look its slug
up in the indexed roster and create an ACL on a hit; a miss contributes
nothing.  The function body contains no logging call, so the emitted log
records are the empty list. -/
def parseAcls (indexed_acls : List (String × AclRow)) (acls_to_read : List String)
    (parent : String) : List ACLRec × List LogEntry :=
  (acls_to_read.foldl
    (fun acl_list acl_id =>
      match lookupAcl indexed_acls (slugify acl_id) with
      | some acl_data => acl_list ++ [createAcl parent acl_data]
      | none => acl_list)
    [], [])

/-- The call site in `_parse_experiments`: the experiment row's `Groups` cell
is split on commas and handed to `_parse_acls` with the new experiment as
parent. -/
def parseAclsForExperiment (indexed_acls : List (String × AclRow))
    (groups_cell : String) (experiment_id : String) : List ACLRec × List LogEntry :=
  parseAcls indexed_acls (pySplit groups_cell ',') experiment_id

/-! ## Derived definitions and concrete instances used by the claims -/

/-- The on-disk source chosen for a datafile inside `add_datafile`
(`crate.source / filepath` when that path exists, else the identifier),
which also becomes the file node's destination path and identifier. -/
def datafileDest (c : Crate) (df : Datafile) : String :=
  if c.fs.contains (c.source ++ "/" ++ df.filepath) then c.source ++ "/" ++ df.filepath
  else df.filepath

/-- The property bag built by `add_datafile` for a datafile without metadata
(the base properties plus the date and additional-property passes). -/
def datafileProps (df : Datafile) : Props :=
  let properties : Props :=
    [("identifiers", .s df.filepath), ("name", .s df.name), ("description", .s df.description)]
  let properties :=
    match df.date_created with
    | some d => addDatesProps properties d df.date_modified
    | none => properties
  match df.additional_properties with
  | [] => properties
  | a₁ :: as₁ => addAdditionalProps properties (a₁ :: as₁)

/-- A dataset referencing an experiment absent from a fresh crate. -/
def c4dataset : Dataset :=
  { name := "d", description := "", directory := "BAM", experiments := ["expX"],
    instrument := some { id := "instr", name := "instr" } }

/-- The metadata context node created by `_add_metadata_to_crate` when a
metadata object `m` is first attached under parent `p`. -/
def mdNode (m : MTMetadata) (p : String) : ROEntity :=
  ⟨.context, formatContextId (p ++ "_" ++ m.name),
    [("@type", PropVal.s "my_tardis_metadata"),
     ("name", PropVal.s m.name),
     ("value", PropVal.s m.value),
     ("myTardis-type", PropVal.s m.mt_type),
     ("sensitive", PropVal.b m.sensitive),
     ("parents", PropVal.arr [p])]⟩

/-- The metadata object of the spec's idempotence scenario:
`{"code": "1234"}` attached under parent `exp1`. -/
def c2meta : MTMetadata :=
  { name := "code", value := "1234", mt_type := "STRING", sensitive := false, parent := "exp1" }

/-- The `MTMetadata` object `create_metadata_objects` builds for a key/value
pair with a resolved type name, sensitivity flag and no parent object. -/
def mkMetaObj (k v url ty : String) (sens : Bool) : MTMetadataObj :=
  { name := k, value := v, mt_type := ty, mt_schema := url, sensitive := sens, parent := none }

/-- The instrument of the concrete root-merge scenario. -/
def c8instr : ContextObject := { id := "instr", name := "instr" }

/-- A crate holding one experiment node besides the root. -/
def c8crate : Crate :=
  (initialCrate "data").addEntity ⟨.context, "#exp1", [("@type", PropVal.s "DataCatalog")]⟩

/-- A dataset whose directory resolves to the crate root. -/
def c8dataset : Dataset :=
  { name := "root-ds", description := "dd", directory := ".", experiments := ["exp1"],
    instrument := some c8instr }

/-- The identifiers of the crate's data entities (datasets and files). -/
def dataIds (c : Crate) : List String :=
  (c.entities.filter (fun e => e.kind == EntityKind.data)).map (fun e => e.id)

/-- The property bag `add_context_object` builds for a context object
without metadata (the instruments appearing in the claims). -/
def ctxProps (co : ContextObject) : Props :=
  let properties : Props := [("id", .s co.id), ("name", .s co.name)]
  let properties :=
    match co.schema_type with
    | some st => properties.set "@type" (.s st)
    | none => properties
  match co.date_created with
  | some d => addDatesProps properties d co.date_modified
  | none => properties

/-- The context node `add_context_object` builds for a context object
without metadata. -/
def ctxNodeOf (co : ContextObject) : ROEntity :=
  ⟨.context, formatContextId co.id, ctxProps co⟩

/-- The property bag `add_dataset` builds for a dataset without metadata,
dates or additional properties, from the resolved experiment identifiers and
the instrument node identifier. -/
def datasetProps (ds : Dataset) (experiments : List String) (instrument_id : String) : Props :=
  Props.set
    [("identifiers", PropVal.s ds.directory), ("name", PropVal.s ds.name),
     ("description", PropVal.s ds.description),
     ("includedInDataCatalog", PropVal.arr experiments)]
    "instrument" (PropVal.s instrument_id)

/-- The encrypted `MedicalEntity` child node `_add_participant_sensitve`
builds for participant `p`, before the recipients are appended. -/
def sensitiveBaseNode (p : Participant) : ROEntity :=
  ⟨.encryptedContext, formatContextId (slugify (p.id ++ "-sensitive")),
    [("@type", .s "MedicalEntity"),
     ("name", .s (slugify (p.id ++ "-sensitive"))),
     ("NHI number", .s (pyOrOpt p.nhi_number "N/A")),
     ("date_of_birth",
       match p.date_of_birth with
       | some d => .s d
       | none => .null),
     ("parents", .arr [p.id])]⟩

/-- The identifier of the participant's encrypted child node. -/
def c5childId (p : Participant) : String := (sensitiveBaseNode p).id

/-- The encrypted child node after the recipients `rs`, resolved against
crate `c`, are appended under `encryptedTo`. -/
def c5child (c : Crate) (p : Participant) (rs : List User) : ROEntity :=
  (resolveRecipients c rs).2.foldl
    (fun e (recip : ROEntity) => e.appendTo "encryptedTo" recip.id) (sensitiveBaseNode p)

/-- The plain participant context node built by `add_participant` (before any
`sensitive` link is appended). -/
def plainParticipantNode (p : Participant) : ROEntity :=
  ⟨.context, p.roc_id,
    updateProperties
      [("@type", .arr ["Person", "MedicalEntity", "Patient"]),
       ("name", .s p.name),
       ("description", .s p.description),
       ("project", .s p.project),
       ("gender", .s p.gender),
       ("ethnicity", .s p.ethnicity)] p⟩

/-- The participant of the concrete C5 scenarios: a date of birth and an NHI
number, and one decryption recipient. -/
def c5participant : Participant :=
  { id := "pat1", name := "Pat", description := "", project := "proj",
    gender := "", ethnicity := "",
    date_of_birth := some "2000-01-01", nhi_number := some "ABC1234",
    recipients := [{ id := "recip1", name := "R" }] }

/-! ## Auxiliary lemmas about the property-bag and crate primitives -/

theorem Props.get_set_self (ps : Props) (k : String) (v : PropVal) :
    (ps.set k v).get k = some v := by
  induction ps with
  | nil => simp [Props.set, Props.get, List.find?]
  | cons hd tl ih =>
    by_cases h : (hd.1 == k) = true
    · simp [Props.set, Props.get, h, List.find?]
    · rw [Bool.not_eq_true] at h
      simp only [Props.set, h, Bool.false_eq_true, if_false]
      unfold Props.get at ih ⊢
      rw [List.find?_cons_of_neg _ (by simp [h])]
      exact ih

theorem Props.get_set_ne (ps : Props) (k k1 : String) (v : PropVal) (h : k1 ≠ k) :
    (ps.set k v).get k1 = ps.get k1 := by
  have hkk1 : (k == k1) = false := by
    simp only [beq_eq_false_iff_ne, ne_eq]
    exact fun hc => h hc.symm
  induction ps with
  | nil => simp [Props.set, Props.get, List.find?, hkk1]
  | cons hd tl ih =>
    by_cases h1 : (hd.1 == k) = true
    · have hd1 : (hd.1 == k1) = false := by
        rw [beq_iff_eq] at h1
        rw [h1]
        exact hkk1
      simp [Props.set, Props.get, h1, List.find?, hd1, hkk1]
    · rw [Bool.not_eq_true] at h1
      simp only [Props.set, h1, Bool.false_eq_true, if_false]
      by_cases h2 : (hd.1 == k1) = true
      · simp [Props.get, List.find?, h2]
      · rw [Bool.not_eq_true] at h2
        unfold Props.get at ih ⊢
        rw [List.find?_cons_of_neg _ (by simp [h2]),
          List.find?_cons_of_neg _ (by simp [h2])]
        exact ih

theorem dereference_some_id (c : Crate) (x : String) (y : ROEntity)
    (h : c.dereference x = some y) : y.id = x := by
  have := List.find?_some h
  simpa using this

/-- `find?` by id over a map that rewrites only entities of a fixed id,
preserving every entity's id. -/
theorem find?_byId_map (l : List ROEntity) (eid x : String) (f : ROEntity → ROEntity)
    (hf : ∀ y, (f y).id = y.id) :
    (l.map (fun y => if y.id == eid then f y else y)).find? (fun y => y.id == x)
      = (l.find? (fun y => y.id == x)).map (fun y => if y.id == eid then f y else y) := by
  induction l with
  | nil => simp
  | cons hd tl ih =>
    have hid : (if hd.id == eid then f hd else hd).id = hd.id := by
      split
      · exact hf hd
      · rfl
    simp only [List.map_cons, List.find?]
    cases hx : hd.id == x with
    | true =>
      have h1 : ((if hd.id == eid then f hd else hd).id == x) = true := by
        rw [hid]
        exact hx
      rw [h1]
      rfl
    | false =>
      have h1 : ((if hd.id == eid then f hd else hd).id == x) = false := by
        rw [hid]
        exact hx
      rw [h1]
      exact ih

theorem dereference_addEntity (c : Crate) (e : ROEntity) (x : String) :
    (c.addEntity e).dereference x = if e.id = x then some e else c.dereference x := by
  show (insertEntity c.entities e).find? (fun y => y.id == x)
      = if e.id = x then some e else c.entities.find? (fun y => y.id == x)
  induction c.entities with
  | nil =>
    by_cases hex : e.id = x
    · simp [insertEntity, List.find?, hex]
    · have hb : (e.id == x) = false := by simp [beq_eq_false_iff_ne, hex]
      simp [insertEntity, List.find?, hb, hex]
  | cons hd tl ih =>
    by_cases h1 : (hd.id == e.id) = true
    · simp only [insertEntity, h1, if_true]
      by_cases hex : e.id = x
      · have hb : (e.id == x) = true := by simp [hex]
        simp [List.find?, hb, hex]
      · have hb : (e.id == x) = false := by simp [beq_eq_false_iff_ne, hex]
        have hdb : (hd.id == x) = false := by
          rw [beq_iff_eq] at h1
          rw [h1]
          exact hb
        simp [List.find?, hb, hdb, hex]
    · rw [Bool.not_eq_true] at h1
      simp only [insertEntity, h1, Bool.false_eq_true, if_false]
      by_cases h2 : (hd.id == x) = true
      · have hex : ¬ e.id = x := by
          rw [beq_iff_eq] at h2
          rw [beq_eq_false_iff_ne, ne_eq] at h1
          rw [← h2]
          exact fun hc => h1 hc.symm
        simp [List.find?, h2, hex]
      · rw [Bool.not_eq_true] at h2
        simp only [List.find?, h2]
        rw [ih]

theorem dereference_appendTo (c : Crate) (eid k v x : String) :
    (c.appendTo eid k v).dereference x
      = (c.dereference x).map (fun y => if y.id == eid then y.appendTo k v else y) := by
  unfold Crate.appendTo Crate.dereference
  exact find?_byId_map c.entities eid x (fun y => y.appendTo k v) (fun y => rfl)

theorem dereference_updateEntityProps (c : Crate) (eid x : String) (ps : Props) :
    (c.updateEntityProps eid ps).dereference x
      = (c.dereference x).map
          (fun y => if y.id == eid then { y with props := y.props.update ps } else y) := by
  unfold Crate.updateEntityProps Crate.dereference
  exact find?_byId_map c.entities eid x
    (fun y => { y with props := y.props.update ps }) (fun y => rfl)

theorem logs_addEntity (c : Crate) (e : ROEntity) : (c.addEntity e).logs = c.logs := rfl

theorem source_addEntity (c : Crate) (e : ROEntity) : (c.addEntity e).source = c.source := rfl

theorem fs_addEntity (c : Crate) (e : ROEntity) : (c.addEntity e).fs = c.fs := rfl

theorem logs_appendTo (c : Crate) (eid k v : String) : (c.appendTo eid k v).logs = c.logs := rfl

theorem ROEntity.appendTo_id (e : ROEntity) (k v : String) : (e.appendTo k v).id = e.id := rfl

theorem ROEntity.appendTo_kind (e : ROEntity) (k v : String) : (e.appendTo k v).kind = e.kind := rfl

theorem ROEntity.appendTo_get_self (e : ROEntity) (k v : String) :
    (e.appendTo k v).props.get k = some (PropVal.appended (e.props.get k) v) :=
  Props.get_set_self e.props k _

theorem ROEntity.appendTo_get_ne (e : ROEntity) (k k1 v : String) (h : k1 ≠ k) :
    (e.appendTo k v).props.get k1 = e.props.get k1 :=
  Props.get_set_ne e.props k k1 _ h

/-! ## Claim theorems -/

/-- C10 (confirmed): `Encryptor.encrypt_string` returns one fixed constant
string for every encryptor (whatever public keys it holds) and every input:
no information from the plaintext or the keys reaches the output. -/
theorem claim_C10 (e1 e2 : Encryptor) (s1 s2 : String) :
    e1.encrypt_string s1 = encryptStubText ∧ e1.encrypt_string s1 = e2.encrypt_string s2 :=
  ⟨rfl, rfl⟩

theorem lastMatching_go_nomatch (p : String → Bool) (l : List String) (acc : Option String)
    (h : ∀ x ∈ l, p x = false) :
    l.foldl (fun acc x => if p x then some x else acc) acc = acc := by
  induction l generalizing acc with
  | nil => rfl
  | cons hd tl ih =>
    simp only [List.foldl_cons]
    rw [h hd (by simp), if_neg (by simp)]
    exact ih acc (fun x hx => h x (by simp [hx]))

theorem lastMatching_go_mem (p : String → Bool) (l : List String) :
    ∀ (acc : Option String) (x : String),
      l.foldl (fun acc x => if p x then some x else acc) acc = some x →
      (p x = true ∧ x ∈ l) ∨ acc = some x := by
  induction l with
  | nil => intro acc x h; exact Or.inr h
  | cons hd tl ih =>
    intro acc x h
    simp only [List.foldl_cons] at h
    rcases ih _ x h with h1 | h1
    · exact Or.inl ⟨h1.1, by simp [h1.2]⟩
    · by_cases hp : p hd
      · rw [if_pos hp] at h1
        have : hd = x := by simpa using h1
        subst this
        exact Or.inl ⟨hp, by simp⟩
      · rw [if_neg hp] at h1
        exact Or.inr h1

theorem lastMatching_go_none (p : String → Bool) (l : List String) :
    ∀ (acc : Option String),
      l.foldl (fun acc x => if p x then some x else acc) acc = none →
      acc = none ∧ ∀ x ∈ l, p x = false := by
  induction l with
  | nil => intro acc h; exact ⟨h, by simp⟩
  | cons hd tl ih =>
    intro acc h
    simp only [List.foldl_cons] at h
    obtain ⟨hacc, htl⟩ := ih _ h
    by_cases hp : p hd
    · rw [if_pos hp] at hacc
      exact absurd hacc (by simp)
    · rw [if_neg hp] at hacc
      refine ⟨hacc, ?_⟩
      intro x hx
      rcases List.mem_cons.mp hx with rfl | hx
      · simpa using hp
      · exact htl x hx

theorem lastMatching_spec (p : String → Bool) (l : List String) (x : String)
    (h : lastMatching p l = some x) : p x = true ∧ x ∈ l := by
  rcases lastMatching_go_mem p l none x h with h1 | h1
  · exact h1
  · exact absurd h1 (by simp)

theorem lastMatching_none_spec (p : String → Bool) (l : List String)
    (h : lastMatching p l = none) : ∀ x ∈ l, p x = false :=
  (lastMatching_go_none p l none h).2

/-- C3 (confirmed): the person identifier resolved when a person is added to
the crate respects the priority ORCID over UPI over first identifier: it is
an element of the candidate list; it matches the ORCID pattern whenever any
candidate does; otherwise it matches the UPI pattern whenever any candidate
does; otherwise it is the first candidate verbatim.  In particular a list
holding both an ORCID-shaped and a UPI-shaped candidate resolves to an
ORCID-shaped one, in either order. -/
theorem claim_C3 (identifiers : List String) (h : identifiers ≠ []) :
    ∃ r, resolve_person_id identifiers = some r ∧ r ∈ identifiers ∧
      ((∃ x ∈ identifiers, orcidMatch x = true) → orcidMatch r = true) ∧
      ((∀ x ∈ identifiers, orcidMatch x = false) →
        (∃ x ∈ identifiers, upiMatch x = true) → upiMatch r = true) ∧
      ((∀ x ∈ identifiers, orcidMatch x = false) →
        (∀ x ∈ identifiers, upiMatch x = false) → identifiers.head? = some r) := by
  unfold resolve_person_id
  cases ho : lastMatching orcidMatch identifiers with
  | some i =>
    obtain ⟨hio, him⟩ := lastMatching_spec _ _ _ ho
    refine ⟨i, rfl, him, fun _ => hio, ?_, ?_⟩
    · intro hno _
      exact absurd hio (by simp [hno i him])
    · intro hno _
      exact absurd hio (by simp [hno i him])
  | none =>
    have hnone := lastMatching_none_spec _ _ ho
    cases hu : lastMatching upiMatch identifiers with
    | some i =>
      obtain ⟨hiu, him⟩ := lastMatching_spec _ _ _ hu
      refine ⟨i, rfl, him, ?_, fun _ _ => hiu, ?_⟩
      · rintro ⟨x, hx, hox⟩
        exact absurd hox (by simp [hnone x hx])
      · intro _ hnu
        exact absurd hiu (by simp [hnu i him])
    | none =>
      have hunone := lastMatching_none_spec _ _ hu
      cases identifiers with
      | nil => exact absurd rfl h
      | cons hd tl =>
        refine ⟨hd, rfl, by simp, ?_, ?_, fun _ _ => rfl⟩
        · rintro ⟨x, hx, hox⟩
          exact absurd hox (by simp [hnone x hx])
        · rintro _ ⟨x, hx, hux⟩
          exact absurd hux (by simp [hunone x hx])

/-- Witness for C3: a concrete candidate list holding a UPI-shaped and an
ORCID-shaped identifier, UPI first; the resolver picks the ORCID one. -/
theorem claim_C3_witness :
    ∃ r, resolve_person_id ["abc123", "https://orcid.org/1234-5678-9012-345X"] = some r ∧
      r ∈ ["abc123", "https://orcid.org/1234-5678-9012-345X"] ∧
      ((∃ x ∈ ["abc123", "https://orcid.org/1234-5678-9012-345X"], orcidMatch x = true) →
        orcidMatch r = true) ∧
      ((∀ x ∈ ["abc123", "https://orcid.org/1234-5678-9012-345X"], orcidMatch x = false) →
        (∃ x ∈ ["abc123", "https://orcid.org/1234-5678-9012-345X"], upiMatch x = true) →
        upiMatch r = true) ∧
      ((∀ x ∈ ["abc123", "https://orcid.org/1234-5678-9012-345X"], orcidMatch x = false) →
        (∀ x ∈ ["abc123", "https://orcid.org/1234-5678-9012-345X"], upiMatch x = false) →
        (["abc123", "https://orcid.org/1234-5678-9012-345X"] : List String).head? = some r) :=
  claim_C3 ["abc123", "https://orcid.org/1234-5678-9012-345X"] (by decide)

theorem dereference_log (c : Crate) (lv : LogLevel) (m : String) (x : String) :
    (c.log lv m).dereference x = c.dereference x := rfl

theorem insertEntity_of_absent (l : List ROEntity) (e : ROEntity)
    (h : ∀ x ∈ l, (x.id == e.id) = false) : insertEntity l e = l ++ [e] := by
  induction l with
  | nil => rfl
  | cons hd tl ih =>
    rw [insertEntity, h hd (by simp)]
    simp only [Bool.false_eq_true, if_false, List.cons_append, List.cons.injEq, true_and]
    exact ih (fun x hx => h x (by simp [hx]))

/-- `filter` by id over a map that rewrites only entities of a fixed id,
preserving every entity's id. -/
theorem filter_byId_map (l : List ROEntity) (eid rid : String) (f : ROEntity → ROEntity)
    (hf : ∀ y, (f y).id = y.id) :
    (l.map (fun y => if y.id == eid then f y else y)).filter (fun e => e.id == rid)
      = (l.filter (fun e => e.id == rid)).map (fun y => if y.id == eid then f y else y) := by
  induction l with
  | nil => simp
  | cons hd tl ih =>
    have hid : (if hd.id == eid then f hd else hd).id = hd.id := by
      split
      · exact hf hd
      · rfl
    simp only [List.map_cons, List.filter_cons]
    cases hx : hd.id == rid with
    | true =>
      have h1 : ((if hd.id == eid then f hd else hd).id == rid) = true := by
        rw [hid]
        exact hx
      rw [h1, if_pos rfl, if_pos rfl, List.map_cons, ih]
    | false =>
      have h1 : ((if hd.id == eid then f hd else hd).id == rid) = false := by
        rw [hid]
        exact hx
      rw [h1, if_neg (by simp), if_neg (by simp)]
      exact ih

theorem foldIdentifiers_id (ids : List (Nat × String)) (o : ROEntity) :
    (ids.foldl (fun o p => if p.1 ≠ 0 then o.appendTo "identifiers" p.2 else o) o).id = o.id := by
  induction ids generalizing o with
  | nil => rfl
  | cons hd tl ih =>
    simp only [List.foldl_cons]
    rw [ih]
    split <;> rfl

theorem foldIdentifiers_kind (ids : List (Nat × String)) (o : ROEntity) :
    (ids.foldl (fun o p => if p.1 ≠ 0 then o.appendTo "identifiers" p.2 else o) o).kind = o.kind := by
  induction ids generalizing o with
  | nil => rfl
  | cons hd tl ih =>
    simp only [List.foldl_cons]
    rw [ih]
    split <;> rfl

theorem foldIdentifiers_get_ne (ids : List (Nat × String)) (o : ROEntity) (k : String)
    (h : k ≠ "identifiers") :
    (ids.foldl (fun o p => if p.1 ≠ 0 then o.appendTo "identifiers" p.2 else o) o).props.get k
      = o.props.get k := by
  induction ids generalizing o with
  | nil => rfl
  | cons hd tl ih =>
    simp only [List.foldl_cons]
    rw [ih]
    split
    · exact ROEntity.appendTo_get_ne o "identifiers" k hd.2 h
    · rfl

theorem addIdentifiers_snd_id (c : Crate) (ids : List String) (o : ROEntity) :
    (addIdentifiers c ids o).2.id = o.id := by
  unfold addIdentifiers
  split
  · exact foldIdentifiers_id _ o
  · rfl

theorem addIdentifiers_snd_kind (c : Crate) (ids : List String) (o : ROEntity) :
    (addIdentifiers c ids o).2.kind = o.kind := by
  unfold addIdentifiers
  split
  · exact foldIdentifiers_kind _ o
  · rfl

theorem addIdentifiers_snd_get_ne (c : Crate) (ids : List String) (o : ROEntity) (k : String)
    (h : k ≠ "identifiers") :
    (addIdentifiers c ids o).2.props.get k = o.props.get k := by
  unfold addIdentifiers
  split
  · exact foldIdentifiers_get_ne _ o k h
  · rfl

theorem addIdentifiers_fst (c : Crate) (ids : List String) (o : ROEntity) :
    (addIdentifiers c ids o).1 = c.addEntity (addIdentifiers c ids o).2 := by
  unfold addIdentifiers
  split <;> rfl

theorem mapM_deref_missing (c : Crate) (exps : List String)
    (h : ∃ e ∈ exps, c.dereference ("#" ++ e) = none) :
    exps.mapM (fun experiment =>
        match c.dereference ("#" ++ experiment) with
        | some e => Except.ok e.id
        | none => Except.error "AttributeError: NoneType object has no attribute id")
      = (Except.error "AttributeError: NoneType object has no attribute id" :
          Except String (List String)) := by
  induction exps with
  | nil => simp at h
  | cons hd tl ih =>
    rw [List.mapM_cons]
    rcases h with ⟨e, he, hnone⟩
    rcases List.mem_cons.mp he with rfl | he
    · rw [hnone]
      rfl
    · cases hderef : c.dereference ("#" ++ hd) with
      | none => rfl
      | some v =>
        rw [ih ⟨e, he, hnone⟩]
        rfl

/-- C4 (confirmed): a Dataset carrying an experiment reference whose
identifier is not dereferenceable under `"#" + experiment id` makes
`add_dataset` raise (`None` has no attribute `id`); the call never returns a
crate, so the dataset is never silently attached to nothing or to a
substitute node. -/
theorem claim_C4 (c : Crate) (ds : Dataset)
    (h : ∃ e ∈ ds.experiments, c.dereference ("#" ++ e) = none) :
    addDataset c ds = Except.error "AttributeError: NoneType object has no attribute id" := by
  unfold addDataset
  rw [mapM_deref_missing c ds.experiments h]
  rfl

/-- Witness for C4: an empty crate and a dataset referencing the absent
experiment `expX`; `add_dataset` raises. -/
theorem claim_C4_witness :
    (∃ e ∈ c4dataset.experiments, (initialCrate "data").dereference ("#" ++ e) = none) ∧
    addDataset (initialCrate "data") c4dataset
      = Except.error "AttributeError: NoneType object has no attribute id" :=
  ⟨by decide, claim_C4 _ _ (by decide)⟩

/-- C1 counterexample: on a fresh crate, a datafile whose `dataset` reference
(`"missing"`) does not dereference is nevertheless added, with no error and
no warning or error log record: `add_datafile` attaches it to the crate's
root dataset, whose `hasPart` then lists the file. -/
theorem claim_C1_counterexample :
    (initialCrate "data").dereference "missing" = none ∧
    ((addDatafile (initialCrate "data")
        { name := "f", description := "", filepath := "file.txt",
          dataset := "missing" }).1.dereference rootDatasetId).map
        (fun e => e.props.get "hasPart")
      = some (some (PropVal.arr ["file.txt"])) ∧
    (addDatafile (initialCrate "data")
        { name := "f", description := "", filepath := "file.txt",
          dataset := "missing" }).1.logs
      = [⟨LogLevel.info, "Adding File to Crate file.txt"⟩] :=
  ⟨by decide, by decide, by decide⟩

/-- C1 (corrected): when a Datafile's dataset reference does not dereference,
`add_datafile` does not abort or surface an error: it attaches the file to
the crate's root dataset (the root's `hasPart` gains the file identifier) and
logs only an info record. -/
theorem claim_C1_amended (c : Crate) (df : Datafile) (rootEnt : ROEntity)
    (hmiss : c.dereference df.dataset = none)
    (hroot : c.dereference rootDatasetId = some rootEnt)
    (hmeta : df.metadata = [])
    (hne : datafileDest c df ≠ rootDatasetId) :
    (addDatafile c df).2.id = datafileDest c df ∧
    ∃ rootAfter,
      (addDatafile c df).1.dereference rootDatasetId = some rootAfter ∧
      rootAfter.props.get "hasPart"
        = some (PropVal.appended (rootEnt.props.get "hasPart") (datafileDest c df)) ∧
      (addDatafile c df).1.logs
        = c.logs ++ [⟨LogLevel.info, "Adding File to Crate " ++ df.filepath⟩] := by
  have hshape : addDatafile c df
      = addIdentifiers
          (((c.addEntity ⟨.data, datafileDest c df, datafileProps df⟩).log .info
              ("Adding File to Crate " ++ df.filepath)).appendTo rootEnt.id "hasPart"
            (datafileDest c df))
          df.identifiers ⟨.data, datafileDest c df, datafileProps df⟩ := by
    unfold addDatafile datafileDest datafileProps
    rw [hmeta]
    dsimp only
    rw [hmiss]
    unfold Crate.root_dataset
    rw [hroot]
    rfl
  rw [hshape]
  refine ⟨addIdentifiers_snd_id _ _ _, rootEnt.appendTo "hasPart" (datafileDest c df), ?_, ?_, ?_⟩
  · rw [addIdentifiers_fst, dereference_addEntity, addIdentifiers_snd_id, if_neg hne,
      dereference_appendTo, dereference_log, dereference_addEntity]
    have hid : (⟨EntityKind.data, datafileDest c df, datafileProps df⟩ : ROEntity).id
        = datafileDest c df := rfl
    rw [hid, if_neg hne, hroot]
    have hself : (rootEnt.id == rootEnt.id) = true := by simp
    simp [hself]
  · exact ROEntity.appendTo_get_self rootEnt "hasPart" _
  · rw [addIdentifiers_fst, logs_addEntity]
    rfl

/-- C2 counterexample: attaching the metadata `{"code": "1234"}` to the same
parent `exp1` twice leaves exactly one metadata node, but its parent list is
`["exp1", "exp1"]` — the parent appears twice, not exactly once as the claim
states. -/
theorem claim_C2_counterexample :
    (((addMetadataProps (addMetadataProps (initialCrate "data") "exp1" []
        [("code", c2meta)]).1 "exp1" [] [("code", c2meta)]).1.entities.filter
        (fun e => e.id == "#exp1_code")).length = 1) ∧
    ((addMetadataProps (addMetadataProps (initialCrate "data") "exp1" []
        [("code", c2meta)]).1 "exp1" [] [("code", c2meta)]).1.dereference "#exp1_code").map
        (fun e => e.props.get "parents")
      = some (some (PropVal.arr ["exp1", "exp1"])) ∧
    ¬ ((addMetadataProps (addMetadataProps (initialCrate "data") "exp1" []
        [("code", c2meta)]).1 "exp1" [] [("code", c2meta)]).1.dereference "#exp1_code").map
        (fun e => e.props.get "parents")
      = some (some (PropVal.arr ["exp1"])) :=
  ⟨by decide, by decide, by decide⟩

/-- C2 (corrected): attaching a metadata object with the same
(parent id, name) a second time creates no duplicate node — the second
attachment appends the parent to the existing node's parent list — so after
attaching the same metadata to the same parent twice, exactly one metadata
node exists and its parent list contains that parent exactly twice (not
once). -/
theorem claim_C2_amended (c : Crate) (p : String) (props1 props2 : Props) (m : MTMetadata)
    (hp : m.parent = p)
    (habsent : c.dereference m.ro_crate_id = none) :
    (((addMetadataProps (addMetadataProps c p props1 [(m.name, m)]).1 p props2
        [(m.name, m)]).1.entities.filter
        (fun e => e.id == m.ro_crate_id)).length = 1) ∧
    ((addMetadataProps (addMetadataProps c p props1 [(m.name, m)]).1 p props2
        [(m.name, m)]).1.dereference m.ro_crate_id).map
        (fun e => e.props.get "parents")
      = some (some (PropVal.arr [p, p])) := by
  have hid : (mdNode m p).id = m.ro_crate_id := by
    unfold mdNode MTMetadata.ro_crate_id
    rw [hp]
  have hids : ∀ x ∈ c.entities, (x.id == m.ro_crate_id) = false := by
    intro x hx
    have := List.find?_eq_none.mp habsent x hx
    simpa using this
  have hcont0 : crateContainsMetadata c m = none := by
    unfold crateContainsMetadata
    rw [habsent]
  have h1 : (addMetadataProps c p props1 [(m.name, m)]).1 = c.addEntity (mdNode m p) := by
    unfold addMetadataProps
    simp only [List.foldl_cons, List.foldl_nil]
    rw [hcont0]
    rfl
  have hc1deref : (c.addEntity (mdNode m p)).dereference m.ro_crate_id = some (mdNode m p) := by
    rw [dereference_addEntity, if_pos hid]
  have hcont1 : crateContainsMetadata (c.addEntity (mdNode m p)) m = some (mdNode m p) := by
    unfold crateContainsMetadata
    rw [hc1deref]
    exact if_pos ⟨rfl, rfl⟩
  have h2 : (addMetadataProps (c.addEntity (mdNode m p)) p props2 [(m.name, m)]).1
      = (c.addEntity (mdNode m p)).appendTo (mdNode m p).id "parents" p := by
    unfold addMetadataProps
    simp only [List.foldl_cons, List.foldl_nil]
    rw [hcont1]
  rw [h1, h2]
  constructor
  · show ((((c.addEntity (mdNode m p)).appendTo (mdNode m p).id "parents" p).entities).filter
        (fun e => e.id == m.ro_crate_id)).length = 1
    have hins : insertEntity c.entities (mdNode m p) = c.entities ++ [mdNode m p] := by
      apply insertEntity_of_absent
      intro x hx
      rw [hid]
      exact hids x hx
    show ((((insertEntity c.entities (mdNode m p))).map
        (fun y => if y.id == (mdNode m p).id then y.appendTo "parents" p else y)).filter
        (fun e => e.id == m.ro_crate_id)).length = 1
    rw [hins,
      filter_byId_map (c.entities ++ [mdNode m p]) (mdNode m p).id m.ro_crate_id
        (fun y => y.appendTo "parents" p) (fun y => rfl),
      List.filter_append]
    have hfe : c.entities.filter (fun e => e.id == m.ro_crate_id) = [] :=
      List.filter_eq_nil_iff.mpr (fun a ha => by simp [hids a ha])
    have hfn : ([mdNode m p].filter (fun e => e.id == m.ro_crate_id)) = [mdNode m p] := by
      simp [List.filter_cons, hid]
    rw [hfe, hfn]
    rfl
  · rw [dereference_appendTo, hc1deref]
    have hbeq : ((mdNode m p).id == (mdNode m p).id) = true := by simp
    simp only [Option.map_some', hbeq, if_true]
    have hparents : ((mdNode m p).appendTo "parents" p).props.get "parents"
        = some (PropVal.appended ((mdNode m p).props.get "parents") p) :=
      ROEntity.appendTo_get_self _ _ _
    rw [hparents]
    rfl

/-- Witness for C2: the amended statement at the concrete scenario — fresh
crate, parent `exp1`, metadata `{"code": "1234"}` attached twice. -/
theorem claim_C2_witness :
    (((addMetadataProps (addMetadataProps (initialCrate "data") "exp1" []
        [("code", c2meta)]).1 "exp1" [] [("code", c2meta)]).1.entities.filter
        (fun e => e.id == c2meta.ro_crate_id)).length = 1) ∧
    ((addMetadataProps (addMetadataProps (initialCrate "data") "exp1" []
        [("code", c2meta)]).1 "exp1" [] [("code", c2meta)]).1.dereference
        c2meta.ro_crate_id).map (fun e => e.props.get "parents")
      = some (some (PropVal.arr ["exp1", "exp1"])) :=
  claim_C2_amended (initialCrate "data") "exp1" [] [] c2meta rfl (by decide)

theorem processMetadataPair_none (ms : MetadataSchema) (ca : Bool) (parent : Option String)
    (mk mv : String)
    (h : ((pyTruthy mk && pyTruthy mv) && (ca || (ms.lookup mk).isSome)) = false) :
    processMetadataPair ms ca parent mk mv = Except.ok none := by
  unfold processMetadataPair
  rw [h]
  simp

theorem processMetadataPair_schema (ms : MetadataSchema) (ca : Bool) (parent : Option String)
    (mk mv : String) (entry : SchemaEntry) (t : Int)
    (hk : pyTruthy mk = true) (hv : pyTruthy mv = true)
    (hl : ms.lookup mk = some entry) (ht : entry.data_type = some t) :
    processMetadataPair ms ca parent mk mv
      = Except.ok (some
          { name := mk, value := mv, mt_type := get_metadata_type t,
            mt_schema := ms.url, sensitive := entry.sensitive.getD false,
            parent := parent }) := by
  unfold processMetadataPair
  rw [hk, hv, hl]
  dsimp only
  rw [ht]
  simp

theorem processMetadataPair_noschema (ms : MetadataSchema) (parent : Option String)
    (mk mv : String)
    (hk : pyTruthy mk = true) (hv : pyTruthy mv = true)
    (hl : ms.lookup mk = none) :
    processMetadataPair ms true parent mk mv
      = Except.ok (some
          { name := mk, value := mv, mt_type := get_metadata_type 2,
            mt_schema := ms.url, sensitive := false, parent := parent }) := by
  unfold processMetadataPair
  rw [hk, hv, hl]
  simp

theorem processMetadataPair_typeError (ms : MetadataSchema) (ca : Bool)
    (parent : Option String) (mk mv : String) (entry : SchemaEntry)
    (hk : pyTruthy mk = true) (hv : pyTruthy mv = true)
    (hl : ms.lookup mk = some entry) (ht : entry.data_type = none) :
    processMetadataPair ms ca parent mk mv
      = Except.error "TypeError: int() argument must not be NoneType" := by
  unfold processMetadataPair
  rw [hk, hv, hl]
  dsimp only
  rw [ht]
  simp

theorem processMetadataPair_some (ms : MetadataSchema) (ca : Bool) (parent : Option String)
    (mk mv : String)
    (hschema : ∀ kv ∈ ms.schema, kv.2.data_type.isSome = true)
    (h : ((pyTruthy mk && pyTruthy mv) && (ca || (ms.lookup mk).isSome)) = true) :
    ∃ mo, processMetadataPair ms ca parent mk mv = Except.ok (some mo) := by
  have hk : pyTruthy mk = true := by
    cases hx : pyTruthy mk
    · rw [hx] at h
      simp at h
    · rfl
  have hv : pyTruthy mv = true := by
    cases hx : pyTruthy mv
    · rw [hx] at h
      simp at h
    · rfl
  cases hl : ms.lookup mk with
  | none =>
    have hca : ca = true := by
      rw [hk, hv, hl] at h
      simpa using h
    subst hca
    exact ⟨_, processMetadataPair_noschema ms parent mk mv hk hv hl⟩
  | some entry =>
    cases ht : entry.data_type with
    | some t => exact ⟨_, processMetadataPair_schema ms ca parent mk mv entry t hk hv hl ht⟩
    | none =>
      exfalso
      have hfind := hl
      unfold MetadataSchema.lookup at hfind
      cases hf : ms.schema.find? (fun kv => kv.1 == mk) with
      | none =>
        rw [hf] at hfind
        simp at hfind
      | some kv =>
        rw [hf] at hfind
        have hkv : kv.2 = entry := by simpa using hfind
        have hmem : kv ∈ ms.schema := List.mem_of_find?_eq_some hf
        have := hschema kv hmem
        rw [hkv, ht] at this
        simp at this

theorem dictInsertMeta_any (macc : List (String × MTMetadataObj)) (k k1 : String)
    (v : MTMetadataObj) :
    (dictInsertMeta macc k v).any (fun kv => kv.1 == k1)
      = (macc.any (fun kv => kv.1 == k1) || (k == k1)) := by
  induction macc with
  | nil =>
    simp only [dictInsertMeta, List.any_cons, List.any_nil]
    cases k == k1 <;> rfl
  | cons hd tl ih =>
    by_cases h : (hd.1 == k) = true
    · have hins : dictInsertMeta (hd :: tl) k v = (k, v) :: tl := by
        unfold dictInsertMeta
        rw [if_pos h]
      have hk : hd.1 = k := by simpa using h
      rw [hins]
      simp only [List.any_cons, hk]
      cases k == k1 <;> cases tl.any (fun kv => kv.1 == k1) <;> rfl
    · rw [Bool.not_eq_true] at h
      simp only [dictInsertMeta, h, Bool.false_eq_true, if_false, List.any_cons]
      rw [ih, Bool.or_assoc]

theorem createLoop_keys (ms : MetadataSchema) (ca : Bool) (parent : Option String)
    (hschema : ∀ kv ∈ ms.schema, kv.2.data_type.isSome = true) :
    ∀ (input : List (String × String)) (acc : List (String × MTMetadataObj)),
      ∃ out, input.foldlM
          (fun metadata_dict kv => do
            match ← processMetadataPair ms ca parent kv.1 kv.2 with
            | some m => pure (dictInsertMeta metadata_dict kv.1 m)
            | none => pure metadata_dict) acc = Except.ok out ∧
        ∀ k, out.any (fun kv => kv.1 == k)
          = (acc.any (fun kv => kv.1 == k)
              || input.any (fun kv => (kv.1 == k)
                  && ((pyTruthy kv.1 && pyTruthy kv.2) && (ca || (ms.lookup kv.1).isSome)))) := by
  intro input
  induction input with
  | nil =>
    intro acc
    exact ⟨acc, rfl, fun k => by simp⟩
  | cons hd tl ih =>
    intro acc
    rw [List.foldlM_cons]
    cases hcond : ((pyTruthy hd.1 && pyTruthy hd.2) && (ca || (ms.lookup hd.1).isSome)) with
    | true =>
      obtain ⟨mo, hmo⟩ := processMetadataPair_some ms ca parent hd.1 hd.2 hschema hcond
      obtain ⟨out, hout, hkeys⟩ := ih (dictInsertMeta acc hd.1 mo)
      refine ⟨out, ?_, ?_⟩
      · rw [hmo]
        exact hout
      · intro k
        rw [hkeys k, dictInsertMeta_any, List.any_cons, hcond]
        cases hd.1 == k <;> cases acc.any (fun kv => kv.1 == k)
          <;> cases tl.any (fun kv => (kv.1 == k)
                && ((pyTruthy kv.1 && pyTruthy kv.2) && (ca || (ms.lookup kv.1).isSome)))
          <;> simp
    | false =>
      have hmo := processMetadataPair_none ms ca parent hd.1 hd.2 hcond
      obtain ⟨out, hout, hkeys⟩ := ih acc
      refine ⟨out, ?_, ?_⟩
      · rw [hmo]
        exact hout
      · intro k
        rw [hkeys k, List.any_cons, hcond]
        cases hd.1 == k <;> cases acc.any (fun kv => kv.1 == k)
          <;> cases tl.any (fun kv => (kv.1 == k)
                && ((pyTruthy kv.1 && pyTruthy kv.2) && (ca || (ms.lookup kv.1).isSome)))
          <;> simp

/-- C6 counterexample: with `collect_all = true`, the pair `("k", "")` — a
key for which the claimed condition `collect_all ∨ key ∈ schema` holds — is
still dropped (the empty value fails the code's truthiness filter), so the
returned map is empty. -/
theorem claim_C6_counterexample :
    ¬ ∀ (input : List (String × String)) (ms : MetadataSchema) (ca : Bool)
        (out : List (String × MTMetadataObj)),
        create_metadata_objects input ms ca none = Except.ok out →
        ∀ k, input.any (fun kv => kv.1 == k) = true →
          (ca = true ∨ (ms.lookup k).isSome = true) →
          out.any (fun kv => kv.1 == k) = true := by
  intro h
  have h2 := h [("k", "")] ⟨[], "u"⟩ true [] (by rfl) "k" (by decide) (Or.inl rfl)
  simp at h2

/-- C6 (corrected): `create_metadata_objects` never errors when every schema
entry carries a `data_type`, and it produces a metadata node for an input
pair exactly when the key **and the value are truthy (non-empty)** and
(`collect_all` is true or the key exists in the schema); all other pairs are
dropped silently.  The returned map's keys are precisely the input keys
satisfying that amended condition. -/
theorem claim_C6_amended (input : List (String × String)) (ms : MetadataSchema)
    (ca : Bool) (parent : Option String)
    (hschema : ∀ kv ∈ ms.schema, kv.2.data_type.isSome = true) :
    ∃ out, create_metadata_objects input ms ca parent = Except.ok out ∧
      ∀ k, out.any (fun kv => kv.1 == k)
        = input.any (fun kv => (kv.1 == k)
            && ((pyTruthy kv.1 && pyTruthy kv.2) && (ca || (ms.lookup kv.1).isSome))) := by
  obtain ⟨out, hout, hkeys⟩ := createLoop_keys ms ca parent hschema input []
  refine ⟨out, hout, fun k => ?_⟩
  rw [hkeys k]
  simp

/-- Witness for C6: a schema holding `k`, input `[("k","v"), ("j","")]` with
`collect_all = false`: `k` is kept, `j` (not in the schema, and with an empty
value) is dropped, and the call succeeds. -/
theorem claim_C6_witness :
    ∃ out, create_metadata_objects [("k", "v"), ("j", "")]
        ⟨[("k", ⟨some 3, some true⟩)], "u"⟩ false none = Except.ok out ∧
      out.any (fun kv => kv.1 == "k") = true ∧
      out.any (fun kv => kv.1 == "j") = false := by
  obtain ⟨out, hout, hkeys⟩ := claim_C6_amended [("k", "v"), ("j", "")]
    ⟨[("k", ⟨some 3, some true⟩)], "u"⟩ false none (by decide)
  refine ⟨out, hout, ?_, ?_⟩
  · rw [hkeys "k"]
    decide
  · rw [hkeys "j"]
    decide

theorem MT_METADATA_TYPE_eq_none (t : Int) (h : ¬ (1 ≤ t ∧ t ≤ 8)) :
    MT_METADATA_TYPE t = none := by
  unfold MT_METADATA_TYPE
  split <;> first | rfl | (exfalso; omega)

/-- C7 counterexample: a schema entry that is present but carries no
`data_type` code does not default the node's type to STRING — the call
raises a `TypeError` (from `int(None)`) and produces nothing at all. -/
theorem claim_C7_counterexample :
    create_metadata_objects [("k", "v")] ⟨[("k", ⟨none, some false⟩)], "u"⟩ false none
      = Except.error "TypeError: int() argument must not be NoneType" := rfl

/-- C7 (corrected): for a schema entry carrying code `t`, the produced node's
declared type is the image of `t` under the fixed 8-entry table, `STRING` for
any `t` outside 1–8; a key absent from the schema (collect-all case) also
yields `STRING`.  But a schema entry **lacking** a `data_type` code makes the
call raise a `TypeError` instead of defaulting to STRING. -/
theorem claim_C7_amended (k v url : String) (t : Int) (sens : Option Bool)
    (hk : pyTruthy k = true) (hv : pyTruthy v = true) :
    (∃ mo, create_metadata_objects [(k, v)] ⟨[(k, ⟨some t, sens⟩)], url⟩ false none
        = Except.ok [(k, mo)] ∧ mo.mt_type = get_metadata_type t) ∧
    (∃ mo, create_metadata_objects [(k, v)] ⟨[], url⟩ true none
        = Except.ok [(k, mo)] ∧ mo.mt_type = "STRING") ∧
    (create_metadata_objects [(k, v)] ⟨[(k, ⟨none, sens⟩)], url⟩ false none
        = Except.error "TypeError: int() argument must not be NoneType") ∧
    (get_metadata_type 1 = "NUMERIC" ∧ get_metadata_type 2 = "STRING" ∧
      get_metadata_type 3 = "URL" ∧ get_metadata_type 4 = "LINK" ∧
      get_metadata_type 5 = "FILENAME" ∧ get_metadata_type 6 = "DATETIME" ∧
      get_metadata_type 7 = "LONGSTRING" ∧ get_metadata_type 8 = "JSON") ∧
    (¬ (1 ≤ t ∧ t ≤ 8) → get_metadata_type t = "STRING") := by
  have hlook : (⟨[(k, ⟨some t, sens⟩)], url⟩ : MetadataSchema).lookup k
      = some ⟨some t, sens⟩ := by
    unfold MetadataSchema.lookup
    simp [List.find?]
  have hlook2 : (⟨[(k, ⟨none, sens⟩)], url⟩ : MetadataSchema).lookup k
      = some ⟨none, sens⟩ := by
    unfold MetadataSchema.lookup
    simp [List.find?]
  have hlooknone : (⟨[], url⟩ : MetadataSchema).lookup k = none := rfl
  refine ⟨⟨mkMetaObj k v url (get_metadata_type t) (sens.getD false), ?_, rfl⟩,
    ⟨mkMetaObj k v url (get_metadata_type 2) false, ?_, rfl⟩,
    ?_, ⟨rfl, rfl, rfl, rfl, rfl, rfl, rfl, rfl⟩, ?_⟩
  · unfold create_metadata_objects
    rw [List.foldlM_cons,
      processMetadataPair_schema _ false none k v ⟨some t, sens⟩ t hk hv hlook rfl]
    rfl
  · unfold create_metadata_objects
    rw [List.foldlM_cons, processMetadataPair_noschema _ none k v hk hv hlooknone]
    rfl
  · unfold create_metadata_objects
    rw [List.foldlM_cons,
      processMetadataPair_typeError _ false none k v ⟨none, sens⟩ hk hv hlook2 rfl]
    rfl
  · intro h
    unfold get_metadata_type
    rw [MT_METADATA_TYPE_eq_none t h]
    rfl

/-- Witness for C7: key `k`, value `v`, unrecognized code 9 — the produced
node's type is STRING, and all concrete conjuncts hold. -/
theorem claim_C7_witness :
    (∃ mo, create_metadata_objects [("k", "v")] ⟨[("k", ⟨some 9, some false⟩)], "u"⟩ false none
        = Except.ok [("k", mo)] ∧ mo.mt_type = get_metadata_type 9) ∧
    (∃ mo, create_metadata_objects [("k", "v")] ⟨[], "u"⟩ true none
        = Except.ok [("k", mo)] ∧ mo.mt_type = "STRING") ∧
    (create_metadata_objects [("k", "v")] ⟨[("k", ⟨none, some false⟩)], "u"⟩ false none
        = Except.error "TypeError: int() argument must not be NoneType") ∧
    (get_metadata_type 1 = "NUMERIC" ∧ get_metadata_type 2 = "STRING" ∧
      get_metadata_type 3 = "URL" ∧ get_metadata_type 4 = "LINK" ∧
      get_metadata_type 5 = "FILENAME" ∧ get_metadata_type 6 = "DATETIME" ∧
      get_metadata_type 7 = "LONGSTRING" ∧ get_metadata_type 8 = "JSON") ∧
    (¬ ((1 : Int) ≤ 9 ∧ (9 : Int) ≤ 8) → get_metadata_type 9 = "STRING") :=
  claim_C7_amended "k" "v" "u" 9 (some false) (by decide) (by decide)

theorem formatContextId_ne_root (s : String) : formatContextId s ≠ rootDatasetId := by
  unfold formatContextId rootDatasetId
  split
  · rename_i hc
    intro he
    subst he
    exact absurd hc (by decide)
  · intro he
    have hdata : ("#" ++ s).data = "./".data := by rw [he]
    rw [String.data_append] at hdata
    simp at hdata

theorem mem_insertEntity (l : List ROEntity) (e x : ROEntity) (h : x ∈ insertEntity l e) :
    x = e ∨ x ∈ l := by
  induction l with
  | nil => simpa [insertEntity] using h
  | cons hd tl ih =>
    unfold insertEntity at h
    by_cases hc : (hd.id == e.id) = true
    · rw [if_pos hc] at h
      rcases List.mem_cons.mp h with rfl | h
      · exact Or.inl rfl
      · exact Or.inr (List.mem_cons_of_mem _ h)
    · rw [if_neg hc] at h
      rcases List.mem_cons.mp h with rfl | h
      · exact Or.inr (List.mem_cons_self _ _)
      · rcases ih h with h1 | h1
        · exact Or.inl h1
        · exact Or.inr (List.mem_cons_of_mem _ h1)

theorem dataIds_addEntity (c : Crate) (e : ROEntity) :
    ∀ i ∈ dataIds (c.addEntity e),
      (i = e.id ∧ e.kind = EntityKind.data) ∨ i ∈ dataIds c := by
  intro i hi
  unfold dataIds at hi ⊢
  rw [List.mem_map] at hi
  obtain ⟨x, hx, rfl⟩ := hi
  rw [List.mem_filter] at hx
  rcases mem_insertEntity _ _ _ hx.1 with rfl | hmem
  · exact Or.inl ⟨rfl, by simpa using hx.2⟩
  · right
    rw [List.mem_map]
    exact ⟨x, List.mem_filter.mpr ⟨hmem, hx.2⟩, rfl⟩

theorem dataIds_mapIf (l : List ROEntity) (eid : String) (f : ROEntity → ROEntity)
    (hkind : ∀ y, (f y).kind = y.kind) (hid : ∀ y, (f y).id = y.id) :
    ((l.map (fun y => if y.id == eid then f y else y)).filter
        (fun e => e.kind == EntityKind.data)).map (fun e => e.id)
      = (l.filter (fun e => e.kind == EntityKind.data)).map (fun e => e.id) := by
  induction l with
  | nil => rfl
  | cons hd tl ih =>
    have hk : (if hd.id == eid then f hd else hd).kind = hd.kind := by
      split
      · exact hkind hd
      · rfl
    have hi : (if hd.id == eid then f hd else hd).id = hd.id := by
      split
      · exact hid hd
      · rfl
    simp only [List.map_cons, List.filter_cons, hk]
    cases hd.kind == EntityKind.data with
    | true =>
      rw [if_pos rfl, if_pos rfl]
      simp only [List.map_cons, hi]
      rw [ih]
    | false =>
      rw [if_neg (by simp), if_neg (by simp)]
      exact ih

theorem dataIds_updateEntityProps (c : Crate) (eid : String) (ps : Props) :
    dataIds (c.updateEntityProps eid ps) = dataIds c :=
  dataIds_mapIf c.entities eid (fun y => { y with props := y.props.update ps })
    (fun _ => rfl) (fun _ => rfl)

theorem dataIds_appendTo (c : Crate) (eid k v : String) :
    dataIds (c.appendTo eid k v) = dataIds c :=
  dataIds_mapIf c.entities eid (fun y => y.appendTo k v) (fun _ => rfl) (fun _ => rfl)

theorem mem_entities_of_dereference (c : Crate) (x : String) (y : ROEntity)
    (h : c.dereference x = some y) : y ∈ c.entities :=
  List.mem_of_find?_eq_some h

theorem exceptBind_ok {α β : Type} (a : α) (f : α → Except String β) :
    (Except.ok a >>= f) = f a := rfl

theorem exceptPure_eq_ok {α : Type} (a : α) : (pure a : Except String α) = Except.ok a := rfl

theorem addContextObject_of_no_metadata (c : Crate) (co : ContextObject)
    (h : co.metadata = []) :
    addContextObject c co = (c.addEntity (ctxNodeOf co), ctxNodeOf co) := by
  unfold addContextObject ctxNodeOf ctxProps
  rw [h]

theorem get_update_datasetProps (ps : Props) (ds : Dataset) (exps : List String)
    (iid : String) :
    (ps.update (datasetProps ds exps iid)).get "name" = some (PropVal.s ds.name) ∧
    (ps.update (datasetProps ds exps iid)).get "description"
      = some (PropVal.s ds.description) := by
  have hexp : datasetProps ds exps iid
      = [("identifiers", PropVal.s ds.directory), ("name", PropVal.s ds.name),
         ("description", PropVal.s ds.description),
         ("includedInDataCatalog", PropVal.arr exps),
         ("instrument", PropVal.s iid)] := rfl
  rw [hexp]
  have hshape : ∀ qs : Props, Props.update qs
      [("identifiers", PropVal.s ds.directory), ("name", PropVal.s ds.name),
       ("description", PropVal.s ds.description),
       ("includedInDataCatalog", PropVal.arr exps),
       ("instrument", PropVal.s iid)]
      = ((((qs.set "identifiers" (PropVal.s ds.directory)).set "name"
          (PropVal.s ds.name)).set "description" (PropVal.s ds.description)).set
          "includedInDataCatalog" (PropVal.arr exps)).set "instrument" (PropVal.s iid) :=
    fun qs => rfl
  rw [hshape]
  constructor
  · rw [Props.get_set_ne _ _ _ _ (by decide), Props.get_set_ne _ _ _ _ (by decide),
      Props.get_set_ne _ _ _ _ (by decide), Props.get_set_self]
  · rw [Props.get_set_ne _ _ _ _ (by decide), Props.get_set_ne _ _ _ _ (by decide),
      Props.get_set_self]

theorem dereference_rootUpdatedCrate (c : Crate) (ps : Props) (dir x : String) :
    (rootUpdatedCrate c ps dir).dereference x
      = (c.dereference x).map
          (fun y => if y.id == rootDatasetId then { y with props := y.props.update ps } else y) := by
  show ((c.log .debug "Updating root dataset").updateEntityProps rootDatasetId ps).dereference x = _
  rw [dereference_updateEntityProps]
  rfl

theorem dataIds_rootUpdatedCrate (c : Crate) (ps : Props) (dir : String) :
    dataIds (rootUpdatedCrate c ps dir) = dataIds c := by
  show dataIds ((c.log .debug "Updating root dataset").updateEntityProps rootDatasetId ps) = _
  rw [dataIds_updateEntityProps]
  rfl

/-- C8 (confirmed): a Dataset whose directory is `"."` creates no new data
node: `add_dataset` merges the dataset's name/description into the crate's
implicit root entity and returns that root entity (every data-entity id of
the result was already a data-entity id); a dataset with any other directory
yields a new data node stored under (and identified by) the directory path. -/
theorem claim_C8 (c : Crate) (ds : Dataset) (rootEnt : ROEntity) (c2 : Crate) (ent : ROEntity)
    (hroot : c.dereference rootDatasetId = some rootEnt)
    (hmeta : ds.metadata = [])
    (hdates : ds.date_created = none)
    (haddl : ds.additional_properties = [])
    (hinstrm : ∀ co, ds.instrument = some co → co.metadata = [])
    (heq : addDataset c ds = Except.ok (c2, ent)) :
    (ds.directory = "." →
      ent.id = rootDatasetId ∧
      (∀ i ∈ dataIds c2, i ∈ dataIds c) ∧
      ∃ rootAfter, c2.dereference rootDatasetId = some rootAfter ∧
        rootAfter.props.get "name" = some (PropVal.s ds.name) ∧
        rootAfter.props.get "description" = some (PropVal.s ds.description)) ∧
    (ds.directory ≠ "." →
      ent.id = formatDatasetId ds.directory ∧ ent.kind = EntityKind.data ∧
      ∃ stored, c2.dereference (formatDatasetId ds.directory) = some stored ∧
        stored.kind = EntityKind.data ∧ stored.id = formatDatasetId ds.directory) := by
  unfold addDataset at heq
  cases hm : ds.experiments.mapM (fun experiment =>
      match c.dereference ("#" ++ experiment) with
      | some e => Except.ok e.id
      | none => Except.error "AttributeError: NoneType object has no attribute id") with
  | error msg =>
    rw [hm] at heq
    exact absurd heq (by simp [Bind.bind, Except.bind])
  | ok exps =>
    rw [hm] at heq
    simp only [exceptBind_ok] at heq
    cases hi : ds.instrument with
    | none =>
      rw [hi] at heq
      exact absurd heq (by simp [Bind.bind, Except.bind])
    | some instr =>
      rw [hi] at heq
      dsimp only at heq
      rw [hmeta] at heq
      dsimp only at heq
      rw [addContextObject_of_no_metadata c instr (hinstrm instr hi)] at heq
      dsimp only at heq
      rw [hdates, haddl] at heq
      dsimp only at heq
      simp only [exceptPure_eq_ok] at heq
      have hrid : rootEnt.id = rootDatasetId := dereference_some_id c rootDatasetId rootEnt hroot
      constructor
      · intro hdir
        rw [if_pos hdir, Except.ok.injEq] at heq
        have heq2 : addIdentifiers
            (rootUpdatedCrate (c.addEntity (ctxNodeOf instr))
              (datasetProps ds exps (ctxNodeOf instr).id) ds.directory)
            ds.identifiers
            (rootUpdatedCrate (c.addEntity (ctxNodeOf instr))
              (datasetProps ds exps (ctxNodeOf instr).id) ds.directory).root_dataset
            = (c2, ent) := heq
        have hCU : (rootUpdatedCrate (c.addEntity (ctxNodeOf instr))
            (datasetProps ds exps (ctxNodeOf instr).id) ds.directory).dereference rootDatasetId
            = some { rootEnt with
                props := rootEnt.props.update (datasetProps ds exps (ctxNodeOf instr).id) } := by
          have hne : ¬ (ctxNodeOf instr).id = rootDatasetId := formatContextId_ne_root instr.id
          rw [dereference_rootUpdatedCrate, dereference_addEntity, if_neg hne, hroot]
          simp [hrid]
        have hRU : (rootUpdatedCrate (c.addEntity (ctxNodeOf instr))
            (datasetProps ds exps (ctxNodeOf instr).id) ds.directory).root_dataset
            = { rootEnt with
                props := rootEnt.props.update (datasetProps ds exps (ctxNodeOf instr).id) } := by
          unfold Crate.root_dataset
          rw [hCU]
          rfl
        have hent : (addIdentifiers
            (rootUpdatedCrate (c.addEntity (ctxNodeOf instr))
              (datasetProps ds exps (ctxNodeOf instr).id) ds.directory)
            ds.identifiers
            (rootUpdatedCrate (c.addEntity (ctxNodeOf instr))
              (datasetProps ds exps (ctxNodeOf instr).id) ds.directory).root_dataset).2 = ent :=
          congrArg Prod.snd heq2
        have hc2 : (addIdentifiers
            (rootUpdatedCrate (c.addEntity (ctxNodeOf instr))
              (datasetProps ds exps (ctxNodeOf instr).id) ds.directory)
            ds.identifiers
            (rootUpdatedCrate (c.addEntity (ctxNodeOf instr))
              (datasetProps ds exps (ctxNodeOf instr).id) ds.directory).root_dataset).1 = c2 :=
          congrArg Prod.fst heq2
        have hentid : ent.id = rootDatasetId := by
          rw [← hent, addIdentifiers_snd_id, hRU]
          exact hrid
        refine ⟨hentid, ?_, ?_⟩
        · intro i hi2
          rw [← hc2, addIdentifiers_fst] at hi2
          rcases dataIds_addEntity _ _ i hi2 with ⟨hieq, hkind⟩ | hi3
          · rw [addIdentifiers_snd_id, hRU] at hieq
            rw [addIdentifiers_snd_kind, hRU] at hkind
            have hkind2 : rootEnt.kind = EntityKind.data := hkind
            subst hieq
            unfold dataIds
            rw [List.mem_map]
            refine ⟨rootEnt, List.mem_filter.mpr
              ⟨mem_entities_of_dereference c rootDatasetId rootEnt hroot, by simp [hkind2]⟩, rfl⟩
          · rw [dataIds_rootUpdatedCrate] at hi3
            rcases dataIds_addEntity _ _ i hi3 with ⟨_, hkind⟩ | hfin
            · exact absurd hkind (by simp [ctxNodeOf])
            · exact hfin
        · refine ⟨(addIdentifiers
            (rootUpdatedCrate (c.addEntity (ctxNodeOf instr))
              (datasetProps ds exps (ctxNodeOf instr).id) ds.directory)
            ds.identifiers
            (rootUpdatedCrate (c.addEntity (ctxNodeOf instr))
              (datasetProps ds exps (ctxNodeOf instr).id) ds.directory).root_dataset).2,
            ?_, ?_, ?_⟩
          · rw [← hc2, addIdentifiers_fst, dereference_addEntity,
              if_pos (by rw [hent, hentid])]
          · rw [addIdentifiers_snd_get_ne _ _ _ _ (by decide), hRU]
            exact (get_update_datasetProps rootEnt.props ds exps (ctxNodeOf instr).id).1
          · rw [addIdentifiers_snd_get_ne _ _ _ _ (by decide), hRU]
            exact (get_update_datasetProps rootEnt.props ds exps (ctxNodeOf instr).id).2
      · intro hdir
        rw [if_neg hdir, Except.ok.injEq] at heq
        have heq2 : addIdentifiers
            ((c.addEntity (ctxNodeOf instr)).addEntity
              ⟨EntityKind.data, formatDatasetId ds.directory,
                datasetProps ds exps (ctxNodeOf instr).id⟩)
            ds.identifiers
            ⟨EntityKind.data, formatDatasetId ds.directory,
              datasetProps ds exps (ctxNodeOf instr).id⟩
            = (c2, ent) := heq
        have hent : (addIdentifiers
            ((c.addEntity (ctxNodeOf instr)).addEntity
              ⟨EntityKind.data, formatDatasetId ds.directory,
                datasetProps ds exps (ctxNodeOf instr).id⟩)
            ds.identifiers
            ⟨EntityKind.data, formatDatasetId ds.directory,
              datasetProps ds exps (ctxNodeOf instr).id⟩).2 = ent :=
          congrArg Prod.snd heq2
        have hc2 : (addIdentifiers
            ((c.addEntity (ctxNodeOf instr)).addEntity
              ⟨EntityKind.data, formatDatasetId ds.directory,
                datasetProps ds exps (ctxNodeOf instr).id⟩)
            ds.identifiers
            ⟨EntityKind.data, formatDatasetId ds.directory,
              datasetProps ds exps (ctxNodeOf instr).id⟩).1 = c2 :=
          congrArg Prod.fst heq2
        have hentid : ent.id = formatDatasetId ds.directory := by
          rw [← hent, addIdentifiers_snd_id]
        refine ⟨hentid, ?_, ?_⟩
        · rw [← hent, addIdentifiers_snd_kind]
        · refine ⟨(addIdentifiers
            ((c.addEntity (ctxNodeOf instr)).addEntity
              ⟨EntityKind.data, formatDatasetId ds.directory,
                datasetProps ds exps (ctxNodeOf instr).id⟩)
            ds.identifiers
            ⟨EntityKind.data, formatDatasetId ds.directory,
              datasetProps ds exps (ctxNodeOf instr).id⟩).2, ?_, ?_, ?_⟩
          · rw [← hc2, addIdentifiers_fst, dereference_addEntity,
              if_pos (by rw [hent, hentid])]
          · rw [addIdentifiers_snd_kind]
          · rw [addIdentifiers_snd_id]

/-- Witness for C8: a crate holding experiment `exp1`, a dataset with
directory `"."` — the call succeeds, returns the root entity, adds no data
node, and the root's name becomes the dataset's. -/
theorem claim_C8_witness :
    ∃ c2 ent rootAfter, addDataset c8crate c8dataset = Except.ok (c2, ent) ∧
      ent.id = rootDatasetId ∧
      (∀ i ∈ dataIds c2, i ∈ dataIds c8crate) ∧
      c2.dereference rootDatasetId = some rootAfter ∧
      rootAfter.props.get "name" = some (PropVal.s c8dataset.name) ∧
      rootAfter.props.get "description" = some (PropVal.s c8dataset.description) := by
  have hok : (addDataset c8crate c8dataset).isOk = true := by decide
  cases hres : addDataset c8crate c8dataset with
  | error msg =>
    rw [hres] at hok
    simp [Except.isOk, Except.toBool] at hok
  | ok r =>
    obtain ⟨c2, ent⟩ := r
    have h := (claim_C8 c8crate c8dataset ⟨.data, rootDatasetId, [("@type", PropVal.s "Dataset")]⟩
      c2 ent (by decide) rfl rfl rfl
      (fun co hco => by
        obtain rfl : c8instr = co := Option.some.inj hco
        rfl)
      hres).1 rfl
    obtain ⟨h1, h2, rootAfter, h3, h4, h5⟩ := h
    exact ⟨c2, ent, rootAfter, rfl, h1, h2, h3, h4, h5⟩

theorem parseAcls_eq_filterMap (indexed : List (String × AclRow)) (toRead : List String)
    (parent : String) :
    (parseAcls indexed toRead parent).1
      = toRead.filterMap
          (fun acl_id => (lookupAcl indexed (slugify acl_id)).map (createAcl parent)) := by
  unfold parseAcls
  suffices h : ∀ (l : List String) (acc : List ACLRec),
      l.foldl (fun acl_list acl_id =>
          match lookupAcl indexed (slugify acl_id) with
          | some acl_data => acl_list ++ [createAcl parent acl_data]
          | none => acl_list) acc
        = acc ++ l.filterMap
            (fun acl_id => (lookupAcl indexed (slugify acl_id)).map (createAcl parent)) by
    simpa using h toRead []
  intro l
  induction l with
  | nil =>
    intro acc
    simp
  | cons hd tl ih =>
    intro acc
    rw [List.foldl_cons, List.filterMap_cons]
    cases hl : lookupAcl indexed (slugify hd) with
    | none =>
      rw [ih]
      simp
    | some row =>
      rw [ih]
      simp

/-- C9 counterexample: a requested grantee name absent from the roster is
skipped, and the function emits no log records at all — in particular no
warning, contrary to the claim. -/
theorem claim_C9_counterexample :
    parseAcls (indexAcls [⟨"GroupA", true, false, true⟩]) ["Nope"] "#exp1" = ([], []) ∧
    ((parseAcls (indexAcls [⟨"GroupA", true, false, true⟩]) ["Nope"] "#exp1").2.filter
        (fun l => l.level == LogLevel.warning)) = [] :=
  ⟨by decide, by decide⟩

/-- C9 (corrected): `_parse_acls` produces exactly one ACL per listed name
whose slugified form is present in the indexed roster — each with the given
parent and the see-sensitive / can-download / is-owner flags copied from the
roster row — and every name absent from the roster is skipped **silently**
(no log record, hence no warning) rather than failing the whole attachment;
the `"GroupA,GroupB"` scenario yields two ACLs parented on the experiment. -/
theorem claim_C9_amended (indexed : List (String × AclRow)) (toRead : List String)
    (parent : String) :
    (parseAcls indexed toRead parent).1
      = toRead.filterMap
          (fun acl_id => (lookupAcl indexed (slugify acl_id)).map (createAcl parent)) ∧
    (∀ a ∈ (parseAcls indexed toRead parent).1,
      a.parent = parent ∧
      ∃ acl_id ∈ toRead, ∃ row, lookupAcl indexed (slugify acl_id) = some row ∧
        a = createAcl parent row) ∧
    (parseAcls indexed toRead parent).2 = [] ∧
    (parseAclsForExperiment
        (indexAcls [⟨"GroupA", true, false, true⟩, ⟨"GroupB", false, true, false⟩])
        "GroupA,GroupB" "#exp1").1.map ACLRec.parent = ["#exp1", "#exp1"] := by
  refine ⟨parseAcls_eq_filterMap indexed toRead parent, ?_, rfl, by decide⟩
  intro a ha
  rw [parseAcls_eq_filterMap, List.mem_filterMap] at ha
  obtain ⟨aid, hmem, hf⟩ := ha
  cases hl : lookupAcl indexed (slugify aid) with
  | none =>
    rw [hl] at hf
    simp at hf
  | some row =>
    rw [hl] at hf
    simp only [Option.map_some', Option.some.injEq] at hf
    subst hf
    exact ⟨rfl, aid, hmem, row, hl, rfl⟩

theorem resolveRecipients_ids (users : List User) : ∀ c : Crate,
    ((resolveRecipients c users).2).map (fun e => e.id) = users.map User.roc_id := by
  induction users with
  | nil =>
    intro c
    rfl
  | cons u us ih =>
    intro c
    unfold resolveRecipients
    cases hd : c.dereference u.roc_id with
    | some e =>
      dsimp only
      rw [List.map_cons, ih, dereference_some_id c u.roc_id e hd]
      rfl
    | none =>
      dsimp only
      rw [List.map_cons, ih]
      rfl

theorem foldAppendTo_id (rs : List ROEntity) (k : String) :
    ∀ e : ROEntity, (rs.foldl (fun e recip => e.appendTo k recip.id) e).id = e.id := by
  induction rs with
  | nil =>
    intro e
    rfl
  | cons r rs ih =>
    intro e
    rw [List.foldl_cons, ih]
    rfl

theorem foldAppendTo_kind (rs : List ROEntity) (k : String) :
    ∀ e : ROEntity, (rs.foldl (fun e recip => e.appendTo k recip.id) e).kind = e.kind := by
  induction rs with
  | nil =>
    intro e
    rfl
  | cons r rs ih =>
    intro e
    rw [List.foldl_cons, ih]
    rfl

theorem foldAppendTo_get_ne (rs : List ROEntity) (k k1 : String) (h : k1 ≠ k) :
    ∀ e : ROEntity,
      (rs.foldl (fun e recip => e.appendTo k recip.id) e).props.get k1 = e.props.get k1 := by
  induction rs with
  | nil =>
    intro e
    rfl
  | cons r rs ih =>
    intro e
    rw [List.foldl_cons, ih]
    exact ROEntity.appendTo_get_ne e k k1 r.id h

theorem foldAppendTo_get_self (rs : List ROEntity) (k : String) :
    ∀ (e : ROEntity) (l0 : List String), e.props.get k = some (PropVal.arr l0) →
      (rs.foldl (fun e recip => e.appendTo k recip.id) e).props.get k
        = some (PropVal.arr (l0 ++ rs.map (fun r => r.id))) := by
  induction rs with
  | nil =>
    intro e l0 h
    simpa using h
  | cons r rs ih =>
    intro e l0 h
    rw [List.foldl_cons]
    have h1 : (e.appendTo k r.id).props.get k = some (PropVal.arr (l0 ++ [r.id])) := by
      rw [ROEntity.appendTo_get_self, h]
      rfl
    rw [ih (e.appendTo k r.id) (l0 ++ [r.id]) h1]
    simp

theorem foldAppendTo_get_of_none (rs : List ROEntity) (k : String) (e : ROEntity)
    (h : e.props.get k = none) (hrs : rs ≠ []) :
    (rs.foldl (fun e recip => e.appendTo k recip.id) e).props.get k
      = some (PropVal.arr (rs.map (fun r => r.id))) := by
  cases rs with
  | nil => exact absurd rfl hrs
  | cons r rs =>
    rw [List.foldl_cons]
    have h1 : (e.appendTo k r.id).props.get k = some (PropVal.arr [r.id]) := by
      rw [ROEntity.appendTo_get_self, h]
      rfl
    rw [foldAppendTo_get_self rs k (e.appendTo k r.id) [r.id] h1]
    rfl

theorem c5child_id (c : Crate) (p : Participant) (rs : List User) :
    (c5child c p rs).id = c5childId p := by
  unfold c5child c5childId
  exact foldAppendTo_id _ _ _

theorem c5child_kind (c : Crate) (p : Participant) (rs : List User) :
    (c5child c p rs).kind = EntityKind.encryptedContext := by
  unfold c5child
  exact foldAppendTo_kind _ _ _

/-- C5 counterexample: the concrete participant (date of birth and NHI number
present) with zero recipients is added as a plain node only — no encrypted
child is created — but the builder emits **no log record at all**, so there is
no warning log entry, contrary to the claim. -/
theorem claim_C5_counterexample :
    (addParticipant (initialCrate "data")
        { c5participant with recipients := [] }).map (fun r => r.1.logs)
      = Except.ok [] ∧
    (addParticipant (initialCrate "data")
        { c5participant with recipients := [] }).map (fun r => r.1.warnings)
      = Except.ok [] ∧
    (addParticipant (initialCrate "data")
        { c5participant with recipients := [] }).map
        (fun r => (r.1.entities.filter
          (fun e => e.kind == EntityKind.encryptedContext)).length)
      = Except.ok 0 ∧
    (addParticipant (initialCrate "data")
        { c5participant with recipients := [] }).map (fun r => r.2.kind)
      = Except.ok EntityKind.context :=
  ⟨rfl, rfl, rfl, rfl⟩

/-- C5 (corrected): for a participant not yet in the crate whose encrypted
child identifier differs from its own and with no extra dynamic properties:
with at least one recipient and a truthy date of birth or NHI number,
`add_participant` adds the plain node plus a separate encrypted child that
carries the NHI / date-of-birth payload, lists the participant in its
`parents` and the resolved recipients under `encryptedTo`, and is linked from
the plain node under `sensitive`; with zero recipients only the plain node is
added and **no warning (indeed no log record) is emitted** — the claimed
warning does not exist. -/
theorem claim_C5_amended (c : Crate) (p : Participant)
    (habsent : c.dereference p.roc_id = none)
    (hne : c5childId p ≠ p.roc_id)
    (haddl : p.additional_properties = []) :
    (∀ u us, p.recipients = u :: us →
      (pyTruthyOpt p.date_of_birth || pyTruthyOpt p.nhi_number) = true →
      ∃ c2,
        addParticipant c p
          = Except.ok
              (c2, (plainParticipantNode p).appendTo "sensitive" (c5childId p)) ∧
        c2.dereference p.roc_id
          = some ((plainParticipantNode p).appendTo "sensitive" (c5childId p)) ∧
        ((plainParticipantNode p).appendTo "sensitive" (c5childId p)).props.get "sensitive"
          = some (PropVal.arr [c5childId p]) ∧
        ∃ child,
          c2.dereference (c5childId p) = some child ∧
          child.kind = EntityKind.encryptedContext ∧
          child.props.get "NHI number" = some (PropVal.s (pyOrOpt p.nhi_number "N/A")) ∧
          child.props.get "date_of_birth"
            = some (match p.date_of_birth with
                    | some d => PropVal.s d
                    | none => PropVal.null) ∧
          child.props.get "parents" = some (PropVal.arr [p.id]) ∧
          child.props.get "encryptedTo"
            = some (PropVal.arr ((u :: us).map User.roc_id))) ∧
    (p.recipients = [] →
      addParticipant c p
        = Except.ok (c.addEntity (plainParticipantNode p), plainParticipantNode p) ∧
      (c.addEntity (plainParticipantNode p)).logs = c.logs ∧
      (c.addEntity (plainParticipantNode p)).warnings = c.warnings ∧
      (c.addEntity (plainParticipantNode p)).dereference p.roc_id
        = some (plainParticipantNode p) ∧
      ((c.addEntity (plainParticipantNode p)).entities.filter
          (fun e => e.kind == EntityKind.encryptedContext)).length
        = (c.entities.filter (fun e => e.kind == EntityKind.encryptedContext)).length) := by
  constructor
  · intro u us hrec hsens
    have hshape : addParticipant c p
        = Except.ok
            (((resolveRecipients c (u :: us)).1.addEntity
                (c5child c p (u :: us))).addEntity
              ((plainParticipantNode p).appendTo "sensitive" (c5child c p (u :: us)).id),
              (plainParticipantNode p).appendTo "sensitive" (c5child c p (u :: us)).id) := by
      unfold addParticipant
      dsimp only
      rw [habsent]
      dsimp only
      rw [hrec]
      dsimp only
      simp only [Bool.false_eq_true, if_false]
      rw [if_pos hsens]
      rfl
    rw [c5child_id] at hshape
    refine ⟨_, hshape, ?_, ?_, c5child c p (u :: us), ?_, c5child_kind c p (u :: us),
      ?_, ?_, ?_, ?_⟩
    · have hpid : ((plainParticipantNode p).appendTo "sensitive" (c5childId p)).id
          = p.roc_id := rfl
      rw [dereference_addEntity, if_pos hpid]
    · rw [ROEntity.appendTo_get_self]
      have hnone : (plainParticipantNode p).props.get "sensitive" = none := by
        unfold plainParticipantNode updateProperties
        rw [haddl]
        rfl
      rw [hnone]
      rfl
    · have hne2 : ¬ ((plainParticipantNode p).appendTo "sensitive" (c5childId p)).id
          = c5childId p := by
        have hpid : ((plainParticipantNode p).appendTo "sensitive" (c5childId p)).id
            = p.roc_id := rfl
        rw [hpid]
        exact fun h => hne h.symm
      rw [dereference_addEntity, if_neg hne2, dereference_addEntity,
        if_pos (c5child_id c p (u :: us))]
    · unfold c5child
      rw [foldAppendTo_get_ne _ "encryptedTo" "NHI number" (by decide)]
      rfl
    · unfold c5child
      rw [foldAppendTo_get_ne _ "encryptedTo" "date_of_birth" (by decide)]
      rfl
    · unfold c5child
      rw [foldAppendTo_get_ne _ "encryptedTo" "parents" (by decide)]
      rfl
    · unfold c5child
      have hnonempty : (resolveRecipients c (u :: us)).2 ≠ [] := by
        intro hnil
        have hm := resolveRecipients_ids (u :: us) c
        rw [hnil] at hm
        simp at hm
      rw [foldAppendTo_get_of_none _ "encryptedTo" (sensitiveBaseNode p) rfl hnonempty,
        resolveRecipients_ids (u :: us) c]
  · intro hrec
    have hshape : addParticipant c p
        = Except.ok (c.addEntity (plainParticipantNode p), plainParticipantNode p) := by
      unfold addParticipant
      dsimp only
      rw [habsent]
      dsimp only
      rw [hrec]
      rfl
    refine ⟨hshape, logs_addEntity c _, ?_, ?_, ?_⟩
    · unfold Crate.warnings
      rw [logs_addEntity]
    · have hpid : (plainParticipantNode p).id = p.roc_id := rfl
      rw [dereference_addEntity, if_pos hpid]
    · have hids : ∀ x ∈ c.entities, (x.id == (plainParticipantNode p).id) = false := by
        intro x hx
        have h1 := List.find?_eq_none.mp habsent x hx
        simpa using h1
      show ((insertEntity c.entities (plainParticipantNode p)).filter
          (fun e => e.kind == EntityKind.encryptedContext)).length = _
      rw [insertEntity_of_absent c.entities _ hids, List.filter_append]
      have hplain : List.filter (fun e => e.kind == EntityKind.encryptedContext)
          [plainParticipantNode p] = [] := rfl
      rw [hplain]
      simp

/-- C5 witness: the concrete participant with one recipient and a date of
birth yields the plain node linked to an encrypted child that is present in
the resulting crate. -/
theorem claim_C5_witness :
    ∃ c2, addParticipant (initialCrate "data") c5participant
        = Except.ok
            (c2, (plainParticipantNode c5participant).appendTo "sensitive"
              (c5childId c5participant)) ∧
      ¬ c2.dereference (c5childId c5participant) = none := by
  obtain ⟨hA, _⟩ :=
    claim_C5_amended (initialCrate "data") c5participant (by decide) (by decide) rfl
  obtain ⟨c2, hok, _hd, _hs, child, hchild, _⟩ :=
    hA { id := "recip1", name := "R" } [] rfl (by decide)
  refine ⟨c2, hok, ?_⟩
  rw [hchild]
  exact fun h => Option.noConfusion h

/-- C1 witness: the corrected behaviour at the concrete scenario — on a fresh
crate a datafile whose dataset reference is missing is attached to the root
dataset with only an info log record. -/
theorem claim_C1_witness :
    (addDatafile (initialCrate "data")
        { name := "f", description := "", filepath := "file.txt", dataset := "missing" }).2.id
      = datafileDest (initialCrate "data")
          { name := "f", description := "", filepath := "file.txt", dataset := "missing" } ∧
    ∃ rootAfter,
      (addDatafile (initialCrate "data")
          { name := "f", description := "", filepath := "file.txt",
            dataset := "missing" }).1.dereference rootDatasetId = some rootAfter ∧
      rootAfter.props.get "hasPart"
        = some (PropVal.appended
            ((⟨EntityKind.data, rootDatasetId,
                [("@type", PropVal.s "Dataset")]⟩ : ROEntity).props.get "hasPart")
            (datafileDest (initialCrate "data")
              { name := "f", description := "", filepath := "file.txt",
                dataset := "missing" })) ∧
      (addDatafile (initialCrate "data")
          { name := "f", description := "", filepath := "file.txt",
            dataset := "missing" }).1.logs
        = (initialCrate "data").logs
            ++ [⟨LogLevel.info, "Adding File to Crate " ++ "file.txt"⟩] :=
  claim_C1_amended (initialCrate "data")
    { name := "f", description := "", filepath := "file.txt", dataset := "missing" }
    ⟨EntityKind.data, rootDatasetId, [("@type", PropVal.s "Dataset")]⟩
    (by decide) (by decide) rfl (by decide)

end MyTardisIngestion